import Mathlib

/-!
# The importer's data processor (pkg/importer/data-processor.go)

A shallow embedding of the phase state machine that drives a data source
through `Info → Transfer/TransferTarget → Process → Convert → Resize → Complete`.

* Go strings are `String`; `int64` values are `Int` (the processor performs no
  arithmetic on them, it only compares and forwards them).
* A Go `error` is `Option GoError`, `none` being `nil`.
* `resource.Quantity` is modelled by the number it denotes, a rational, where
  quantities are only compared and handed on; where the processor asks a
  quantity for its int64 value (`AsInt64` in `calculateTargetSize`) it is a
  `HeldQuantity`, which keeps the call that made it, since the library answers
  from the form in which it holds the quantity.
* The data source, the qemu operations and the file-system helpers are
  collaborators outside this file: they are fields of `Env`, arbitrary
  functions on an arbitrary world `W`.  Every call the processor makes to one
  of them is recorded in a trace of `Event`s, so that "which operations were
  invoked, in which order, with which arguments" is a statement about a list.
* A Go panic is the `Except.error` side of `Except Panic`.
* The `for` loop of `ProcessData` may run for ever (a source may keep answering
  `Info`), so the loop takes a fuel argument: `none` means the fuel ran out.
-/

namespace Importer

variable {W : Type}

/-! ## Data model -/

/-- ProcessingPhase is the current phase being processed; in Go a string type, so
values other than the eight constants exist. -/
abbrev ProcessingPhase := String

/-- Info is the first phase. -/
def Info : ProcessingPhase := "Info"
/-- Transfer is the phase in which the provider writes data to the scratch space. -/
def Transfer : ProcessingPhase := "Transfer"
/-- TransferTarget is the phase in which the provider writes directly to the target. -/
def TransferTarget : ProcessingPhase := "TransferTarget"
/-- Process is the phase in which the provider processes the data just written. -/
def Process : ProcessingPhase := "Process"
/-- Convert is the phase in which the data is converted to the RAW format. -/
def Convert : ProcessingPhase := "Convert"
/-- Resize is the phase in which the disk image is resized. -/
def Resize : ProcessingPhase := "Resize"
/-- Complete is the phase where the entire process completed successfully. -/
def Complete : ProcessingPhase := "Complete"
/-- Error is the phase in which an error was encountered. -/
def Error : ProcessingPhase := "Error"

/-- Go error values.  The two package variables are compared by identity in
`ProcessData`, so each is a constructor of its own; an error made at run time
by `errors.New`, `errors.Errorf` or `fmt.Errorf` is `created`, and
`errors.Wrap` gives `wrapped`. -/
inductive GoError where
  | scratchSpaceRequired
  | invalidPath
  | created (msg : String)
  | wrapped (cause : GoError) (msg : String)
deriving DecidableEq, Repr

/-- ErrRequiresScratchSpace indicates that we require scratch space. -/
def ErrRequiresScratchSpace : GoError := GoError.scratchSpaceRequired

/-- ErrInvalidPath indicates that the path is invalid. -/
def ErrInvalidPath : GoError := GoError.invalidPath

/-- The unknown-phase error of the switch default:
`errors.Errorf("Unknown processing phase %s", dp.currentPhase)`. -/
def unknownPhaseError (p : ProcessingPhase) : GoError :=
  GoError.created ("Unknown processing phase " ++ p)

/-- The two ways the processor can panic: `resource.MustParse` on a string that
is not a quantity, and the dereference of a nil `*ImgInfo`. -/
inductive Panic where
  | mustParse (s : String)
  | nilDereference
deriving DecidableEq, Repr

/-- A parsed `net/url` URL (third-party type, kept as the text it was parsed from). -/
structure URL where
  raw : String
deriving DecidableEq, Repr

/-- The number a `resource.Quantity` denotes. -/
abbrev Quantity := ℚ

/-- The quantity `value * 10^scale` of `resource.NewScaledQuantity`. -/
def NewScaledQuantity (value : Int) (scale : Int) : Quantity :=
  if 0 ≤ scale then ((value * 10 ^ scale.toNat : Int) : ℚ)
  else (value : ℚ) / ((10 ^ (-scale).toNat : Nat) : ℚ)

/-- The three-way comparison `Quantity.Cmp`: `-1`, `0` or `1`. -/
def Cmp (a b : Quantity) : Int :=
  if a < b then -1 else if a = b then 0 else 1

/-- Modelled from the spec: `util.MinQuantity` (package `pkg/util`, not among the
sources), the minimum of two quantities: the available space when the image
size compares greater than it, the image size otherwise. -/
def MinQuantity (availableSpace imageSize : Quantity) : Quantity :=
  if Cmp imageSize availableSpace = 1 then availableSpace else imageSize

/-- A quantity as the library holds it, named by the call that made it:
`resource.NewScaledQuantity(value, scale)`, kept as the int64 amount `value` with
the scale `scale`, or `resource.MustParse(s)`, kept as an int64 amount or as an
arbitrary-precision decimal according to the digits and the suffix of `s`.
`Cmp` sees the number only, so where quantities are only compared and handed on
(`ResizeImage`) the number stands for the quantity; `Quantity.AsInt64` answers
from the form in which the quantity is held, so `calculateTargetSize` keeps it. -/
inductive HeldQuantity where
  | scaled (value : Int) (scale : Int)
  | parsed (s : String) (number : Quantity)
deriving DecidableEq

/-- The number that a held quantity denotes. -/
def HeldQuantity.number : HeldQuantity → Quantity
  | HeldQuantity.scaled value scale => NewScaledQuantity value scale
  | HeldQuantity.parsed _ number => number

/-- Modelled from the spec: `util.MinQuantity` on held quantities; what it
returns is one of its two arguments, held as that argument is. -/
def HeldQuantity.MinQuantity (availableSpace imageSize : HeldQuantity) : HeldQuantity :=
  if Cmp imageSize.number availableSpace.number = 1 then availableSpace else imageSize

/-- The fields of `image.ImgInfo` as the tests build it. -/
structure ImgInfo where
  Format : String
  BackingFile : String
  VirtualSize : Int
  ActualSize : Int
deriving DecidableEq, Repr

/-- DataProcessor holds the fields needed to process data from a data provider.
The `source` field is the source part of the environment. -/
structure DataProcessor where
  currentPhase : ProcessingPhase
  dataFile : String
  dataDir : String
  scratchDataDir : String
  requestImageSize : String
  availableSpace : Int
deriving DecidableEq, Repr

/-- One call made by the processor to a collaborator, with its arguments. -/
inductive Event where
  | sourceInfo
  | sourceTransfer (path : String)
  | sourceProcess
  | sourceGetURL
  | sourceClose
  | qemuValidate (url : Option URL) (availableSize : Int)
  | qemuConvertToRawStream (url : Option URL) (dest : String)
  | qemuInfo (url : Option URL)
  | qemuResize (dest : String) (size : Quantity)
  | cleanDir (path : String)
deriving DecidableEq

/-- Calls to a method of `DataSourceInterface`. -/
def Event.isSource : Event → Bool
  | Event.sourceInfo => true
  | Event.sourceTransfer _ => true
  | Event.sourceProcess => true
  | Event.sourceGetURL => true
  | Event.sourceClose => true
  | _ => false

/-- Calls to a method of `image.QEMUOperations`. -/
def Event.isQemu : Event → Bool
  | Event.qemuValidate _ _ => true
  | Event.qemuConvertToRawStream _ _ => true
  | Event.qemuInfo _ => true
  | Event.qemuResize _ _ => true
  | _ => false

/-- The collaborators of the processor over a world `W`: the methods of
`DataSourceInterface`, the methods of `image.QEMUOperations` that the processor
uses, the helpers of `pkg/util` and `CleanDir`, and the third-party parsers
(`resource.MustParse`, which panics on `none` and otherwise gives the number
parsed, `Quantity.AsInt64`, whose answer depends on how the library holds the
quantity and not on the number alone, and `url.Parse`, whose error the
processor drops, leaving a nil URL). -/
structure Env (W : Type) where
  sourceInfo : W → (ProcessingPhase × Option GoError) × W
  sourceTransfer : String → W → (ProcessingPhase × Option GoError) × W
  sourceProcess : W → (ProcessingPhase × Option GoError) × W
  sourceGetURL : W → Option URL × W
  sourceClose : W → Option GoError × W
  qemuConvertToRawStream : Option URL → String → W → Option GoError × W
  qemuResize : String → Quantity → W → Option GoError × W
  qemuInfo : Option URL → W → (Option ImgInfo × Option GoError) × W
  qemuValidate : Option URL → Int → W → Option GoError × W
  GetAvailableSpace : String → W → Int
  GetAvailableSpaceBlock : String → W → Int
  CleanDir : String → W → W
  MustParse : String → Option Quantity
  AsInt64 : HeldQuantity → Int × Bool
  urlParse : String → Option URL

/-- The world together with the calls made so far, oldest first. -/
structure Sys (W : Type) where
  world : W
  trace : List Event


/-- Perform one collaborator call: run it on the world and record the event. -/
def Sys.call {α : Type} (st : Sys W) (ev : Event) (op : W → α × W) : α × Sys W :=
  ((op st.world).1, Sys.mk (op st.world).2 (st.trace ++ [ev]))

/-! ## Operations -/

/-- The call `dp.source.Info()`. -/
def callSourceInfo (env : Env W) (st : Sys W) : (ProcessingPhase × Option GoError) × Sys W :=
  st.call Event.sourceInfo env.sourceInfo

/-- The call `dp.source.Transfer(path)`. -/
def callSourceTransfer (env : Env W) (path : String) (st : Sys W) :
    (ProcessingPhase × Option GoError) × Sys W :=
  st.call (Event.sourceTransfer path) (env.sourceTransfer path)

/-- The call `dp.source.Process()`. -/
def callSourceProcess (env : Env W) (st : Sys W) : (ProcessingPhase × Option GoError) × Sys W :=
  st.call Event.sourceProcess env.sourceProcess

/-- The call `dp.source.GetURL()`. -/
def callSourceGetURL (env : Env W) (st : Sys W) : Option URL × Sys W :=
  st.call Event.sourceGetURL env.sourceGetURL

/-- The call `qemuOperations.Validate(url, availableSize)`. -/
def callQemuValidate (env : Env W) (url : Option URL) (availableSize : Int) (st : Sys W) :
    Option GoError × Sys W :=
  st.call (Event.qemuValidate url availableSize) (env.qemuValidate url availableSize)

/-- The call `qemuOperations.ConvertToRawStream(url, dest)`. -/
def callQemuConvertToRawStream (env : Env W) (url : Option URL) (dest : String) (st : Sys W) :
    Option GoError × Sys W :=
  st.call (Event.qemuConvertToRawStream url dest) (env.qemuConvertToRawStream url dest)

/-- The call `qemuOperations.Info(url)`. -/
def callQemuInfo (env : Env W) (url : Option URL) (st : Sys W) :
    (Option ImgInfo × Option GoError) × Sys W :=
  st.call (Event.qemuInfo url) (env.qemuInfo url)

/-- The call `qemuOperations.Resize(dest, size)`. -/
def callQemuResize (env : Env W) (dest : String) (size : Quantity) (st : Sys W) :
    Option GoError × Sys W :=
  st.call (Event.qemuResize dest size) (env.qemuResize dest size)

/-- The call `CleanDir(path)`, whose result the deferred call discards. -/
def callCleanDir (env : Env W) (path : String) (st : Sys W) : Sys W :=
  (st.call (Event.cleanDir path) (fun w => ((), env.CleanDir path w))).2

/-- ResizeImage resizes the image to match the requested size, or the total
target space when that is smaller. -/
def ResizeImage (env : Env W) (dataFile imageSize : String) (totalTargetSpace : Int)
    (st : Sys W) : Except Panic (Option GoError) × Sys W :=
  let dataFileURL := env.urlParse dataFile
  let r := callQemuInfo env dataFileURL st
  match r.1.2 with
  | some err => (Except.ok (some err), r.2)
  | none =>
    if imageSize ≠ "" then
      match r.1.1 with
      | none => (Except.error Panic.nilDereference, r.2)
      | some info =>
        let currentImageSizeQuantity := NewScaledQuantity info.VirtualSize 0
        match env.MustParse imageSize with
        | none => (Except.error (Panic.mustParse imageSize), r.2)
        | some newImageSizeQuantity =>
          let minSizeQuantity :=
            MinQuantity (NewScaledQuantity totalTargetSpace 0) newImageSizeQuantity
          if Cmp currentImageSizeQuantity minSizeQuantity = 0 then
            (Except.ok none, r.2)
          else
            let r2 := callQemuResize env dataFile minSizeQuantity r.2
            (Except.ok r2.1, r2.2)
    else
      (Except.ok (some (GoError.created "Image resize called with blank resize")), r.2)

/-- The method `convert`: validate the source image, then convert it to RAW. -/
def convert (env : Env W) (dp : DataProcessor) (url : Option URL) (st : Sys W) :
    (ProcessingPhase × Option GoError) × Sys W :=
  let r := callQemuValidate env url dp.availableSpace st
  match r.1 with
  | some err => ((Error, some (GoError.wrapped err "Image validation failed")), r.2)
  | none =>
    let r2 := callQemuConvertToRawStream env url dp.dataFile r.2
    match r2.1 with
    | some err => ((Error, some (GoError.wrapped err "Conversion to Raw failed")), r2.2)
    | none => ((Resize, none), r2.2)

/-- The method `resize`: resize only if there is a resize request and the
image is on a file system volume. -/
def resize (env : Env W) (dp : DataProcessor) (st : Sys W) :
    Except Panic (ProcessingPhase × Option GoError) × Sys W :=
  if dp.requestImageSize ≠ "" ∧ env.GetAvailableSpaceBlock dp.dataFile st.world < 0 then
    let r := ResizeImage env dp.dataFile dp.requestImageSize dp.availableSpace st
    match r.1 with
    | Except.error p => (Except.error p, r.2)
    | Except.ok (some err) =>
      (Except.ok (Error, some (GoError.wrapped err "Resize of image failed")), r.2)
    | Except.ok none => (Except.ok (Complete, none), r.2)
  else
    (Except.ok (Complete, none), st)

/-- What one pass through the `switch` of `ProcessData` does: it assigns
`dp.currentPhase, err`, or it returns from `ProcessData` at once (the default
case), or a callee panics. -/
inductive Switched (W : Type) where
  | assigned (phase : ProcessingPhase) (err : Option GoError) (st : Sys W)
  | returned (err : GoError)
  | panicked (p : Panic) (st : Sys W)

/-- The `switch dp.currentPhase` statement of `ProcessData`. -/
def phaseSwitch (env : Env W) (dp : DataProcessor) (st : Sys W) : Switched W :=
  if dp.currentPhase = Info then
    let r := callSourceInfo env st
    Switched.assigned r.1.1 r.1.2 r.2
  else if dp.currentPhase = Transfer then
    let r := callSourceTransfer env dp.scratchDataDir st
    if r.1.2 = some ErrInvalidPath then
      Switched.assigned r.1.1 (some ErrRequiresScratchSpace) r.2
    else
      Switched.assigned r.1.1 r.1.2 r.2
  else if dp.currentPhase = TransferTarget then
    let r := callSourceTransfer env dp.dataDir st
    Switched.assigned r.1.1 r.1.2 r.2
  else if dp.currentPhase = Process then
    let r := callSourceProcess env st
    Switched.assigned r.1.1 r.1.2 r.2
  else if dp.currentPhase = Convert then
    let u := callSourceGetURL env st
    let r := convert env dp u.1 u.2
    Switched.assigned r.1.1 r.1.2 r.2
  else if dp.currentPhase = Resize then
    let r := resize env dp st
    match r.1 with
    | Except.error p => Switched.panicked p r.2
    | Except.ok (phase, err) => Switched.assigned phase err r.2
  else
    Switched.returned (unknownPhaseError dp.currentPhase)

/-- The result of a run: what `ProcessData` returned (or that it panicked), the
processor afterwards, and the world with the calls made. -/
abbrev RunResult (W : Type) := Except Panic (Option GoError) × DataProcessor × Sys W

/-- The `for dp.currentPhase != Complete` loop of `ProcessData` followed by the
final `return err`; `err` is the local variable of that name.  One unit of fuel
is used each time the loop condition is evaluated. -/
def ProcessDataLoop (env : Env W) : Nat → DataProcessor → Option GoError → Sys W →
    Option (RunResult W)
  | 0, _, _, _ => none
  | fuel + 1, dp, err, st =>
    if dp.currentPhase = Complete then
      some (Except.ok err, dp, st)
    else
      match phaseSwitch env dp st with
      | Switched.returned e => some (Except.ok (some e), dp, st)
      | Switched.panicked p st1 => some (Except.error p, dp, st1)
      | Switched.assigned phase err1 st1 =>
        match err1 with
        | some e => some (Except.ok (some e), { dp with currentPhase := phase }, st1)
        | none => ProcessDataLoop env fuel { dp with currentPhase := phase } none st1

/-- The deferred `CleanDir(dp.scratchDataDir)`: registered when the scratch
directory has available space at entry, run when `ProcessData` is left. -/
def deferredCleanDir (env : Env W) (dp : DataProcessor) (entry : Sys W) (st : Sys W) : Sys W :=
  if env.GetAvailableSpace dp.scratchDataDir entry.world > 0 then
    callCleanDir env dp.scratchDataDir st
  else
    st

/-- ProcessData is the main processing loop. -/
def ProcessData (env : Env W) (fuel : Nat) (dp : DataProcessor) (st : Sys W) :
    Option (RunResult W) :=
  match ProcessDataLoop env fuel dp none st with
  | none => none
  | some (out, dp1, st1) => some (out, dp1, deferredCleanDir env dp st st1)

/-! ## Test doubles (pkg/importer/data-processor_test.go) -/

/-- MockDataProvider of the tests: three canned answers, the URL, and the
record of what was called. -/
structure MockDataProvider where
  infoResponse : ProcessingPhase
  transferResponse : ProcessingPhase
  processResponse : ProcessingPhase
  url : Option URL
  transferPath : String
  calledPhases : List ProcessingPhase
deriving DecidableEq, Repr

/-- The mock's `Info()`. -/
def MockDataProvider.Info (m : MockDataProvider) :
    (ProcessingPhase × Option GoError) × MockDataProvider :=
  let m1 := { m with calledPhases := m.calledPhases ++ [Importer.Info] }
  if m.infoResponse = Error then
    ((Error, some (GoError.created "Info errored")), m1)
  else
    ((m.infoResponse, none), m1)

/-- The mock's `Transfer(path)`. -/
def MockDataProvider.Transfer (m : MockDataProvider) (path : String) :
    (ProcessingPhase × Option GoError) × MockDataProvider :=
  let m1 := { m with calledPhases := m.calledPhases ++ [Importer.Transfer], transferPath := path }
  if m.transferResponse = Error then
    ((Error, some (GoError.created "Transfer errored")), m1)
  else
    ((m.transferResponse, none), m1)

/-- The mock's `Process()`. -/
def MockDataProvider.Process (m : MockDataProvider) :
    (ProcessingPhase × Option GoError) × MockDataProvider :=
  let m1 := { m with calledPhases := m.calledPhases ++ [Importer.Process] }
  if m.processResponse = Error then
    ((Error, some (GoError.created "Process errored")), m1)
  else
    ((m.processResponse, none), m1)

/-- The canned results of fakeQEMUOperations: `e2` for ConvertToRawStream, `e3`
for Resize, `ret4` for Info, `e5` for Validate, `e6` for CreateBlankImage, and
the quantity the test expects Resize to be called with (the fake compares it
with the size it receives in a test assertion; here the size received is read
from the trace instead). -/
structure fakeQEMUOperations where
  e2 : Option GoError
  e3 : Option GoError
  ret4 : Option ImgInfo × Option GoError
  e5 : Option GoError
  e6 : Option GoError
  resizeQuantity : Option Quantity

/-- The image information `fakeSmallImageInfo`, of virtual size 1024. -/
def fakeSmallImageInfo : ImgInfo := ImgInfo.mk "" "" 1024 1024

/-- The image information `fakeZeroImageInfo`. -/
def fakeZeroImageInfo : ImgInfo := ImgInfo.mk "" "" 0 0

/-- The value of a run of decimal digits. -/
def digitsValue (cs : List Char) : Nat :=
  cs.foldl (fun n c => n * 10 + (c.toNat - 48)) 0

/-- The power of two of a binary suffix. -/
def binaryExponent (cs : List Char) : Option Nat :=
  if cs = ['K', 'i'] then some 10
  else if cs = ['M', 'i'] then some 20
  else if cs = ['G', 'i'] then some 30
  else if cs = ['T', 'i'] then some 40
  else if cs = ['P', 'i'] then some 50
  else if cs = ['E', 'i'] then some 60
  else none

/-- The power of ten of a decimal suffix, the empty suffix included. -/
def decimalExponent (cs : List Char) : Option Nat :=
  if cs = [] then some 0
  else if cs = ['k'] then some 3
  else if cs = ['M'] then some 6
  else if cs = ['G'] then some 9
  else if cs = ['T'] then some 12
  else if cs = ['P'] then some 15
  else if cs = ['E'] then some 18
  else none

/-- The parser of the test environments: the fragment of `resource.MustParse`
made of an unsigned whole number with an optional suffix; every other string,
the empty one included, is refused.  As in the library, a number with a binary
suffix is capped at the largest int64. -/
def wholeQuantity (s : String) : Option Quantity :=
  let ds := s.toList.takeWhile Char.isDigit
  if ds = [] then none
  else
    match binaryExponent (s.toList.dropWhile Char.isDigit) with
    | some e => some ((min (digitsValue ds * 2 ^ e) (2 ^ 63 - 1) : Nat) : ℚ)
    | none =>
      match decimalExponent (s.toList.dropWhile Char.isDigit) with
      | some e => some ((digitsValue ds * 10 ^ e : Nat) : ℚ)
      | none => none

/-- The answer of `AsInt64` for the quantity parsed from an unsigned whole number
with an optional suffix, as the library holds it.  With `len` the number of
digits without leading zeros, the parser keeps an int64 amount when
`15 - len - e * 3 / 10 - 1 ≥ 0` for the binary suffix `2^e` (the amount being
the product, of scale 0) and when `18 - len ≥ 0` for the decimal suffix `10^e`
(the amount being the digits, of scale `e`), and `AsInt64` then gives the
number when it is in the int64 range; every other quantity is kept as an
arbitrary-precision decimal, for which `AsInt64` answers zero and false. -/
def parsedAsInt64 (s : String) : Int × Bool :=
  let ds := s.toList.takeWhile Char.isDigit
  let num := ds.dropWhile (fun c => c = '0')
  let len := if num = [] then 1 else num.length
  match binaryExponent (s.toList.dropWhile Char.isDigit) with
  | some e =>
    if len + e * 3 / 10 + 1 ≤ 15 ∧ digitsValue ds * 2 ^ e < 2 ^ 63 then
      (((digitsValue ds * 2 ^ e : Nat) : Int), true)
    else (0, false)
  | none =>
    match decimalExponent (s.toList.dropWhile Char.isDigit) with
    | some e =>
      if len ≤ 18 ∧ digitsValue ds * 10 ^ e < 2 ^ 63 then
        (((digitsValue ds * 10 ^ e : Nat) : Int), true)
      else (0, false)
    | none => (0, false)

/-- The `AsInt64` of the test environments, following the library: an int64
amount of scale 0 gives its value, one of negative scale gives zero and false,
one of positive scale gives `value * 10^scale` when that is in the int64 range;
a parsed quantity answers as `parsedAsInt64` says. -/
def heldAsInt64 : HeldQuantity → Int × Bool
  | HeldQuantity.scaled value scale =>
    if scale = 0 then (value, true)
    else if scale < 0 then (0, false)
    else if -(2 ^ 63) ≤ value * 10 ^ scale.toNat ∧ value * 10 ^ scale.toNat < 2 ^ 63 then
      (value * 10 ^ scale.toNat, true)
    else (0, false)
  | HeldQuantity.parsed s _ => parsedAsInt64 s

/-- The environment of the unit tests: the mock provider is the world, the
fake qemu operations answer with their canned results, the two space helpers
answer from tables, and `CleanDir` leaves the mock alone. -/
def testEnv (o : fakeQEMUOperations) (space spaceBlock : String → Int) :
    Env MockDataProvider where
  sourceInfo := fun m => m.Info
  sourceTransfer := fun path m => m.Transfer path
  sourceProcess := fun m => m.Process
  sourceGetURL := fun m => (m.url, m)
  sourceClose := fun m => (none, m)
  qemuConvertToRawStream := fun _ _ m => (o.e2, m)
  qemuResize := fun _ _ m => (o.e3, m)
  qemuInfo := fun _ m => (o.ret4, m)
  qemuValidate := fun _ _ m => (o.e5, m)
  GetAvailableSpace := fun p _ => space p
  GetAvailableSpaceBlock := fun p _ => spaceBlock p
  CleanDir := fun _ m => m
  MustParse := wholeQuantity
  AsInt64 := heldAsInt64
  urlParse := fun s => some (URL.mk s)

/-- A source that reads its answers from a script: the world is the list of
answers still to give, each source call takes the first. -/
def scriptedAnswer (script : List (ProcessingPhase × Option GoError)) :
    (ProcessingPhase × Option GoError) × List (ProcessingPhase × Option GoError) :=
  match script with
  | [] => ((Error, some (GoError.created "script exhausted")), [])
  | a :: rest => (a, rest)

/-- The environment of a scripted source with fake qemu operations. -/
def scriptedEnv (o : fakeQEMUOperations) (space spaceBlock : String → Int) :
    Env (List (ProcessingPhase × Option GoError)) where
  sourceInfo := scriptedAnswer
  sourceTransfer := fun _ w => scriptedAnswer w
  sourceProcess := scriptedAnswer
  sourceGetURL := fun w => (none, w)
  sourceClose := fun w => (none, w)
  qemuConvertToRawStream := fun _ _ w => (o.e2, w)
  qemuResize := fun _ _ w => (o.e3, w)
  qemuInfo := fun _ w => (o.ret4, w)
  qemuValidate := fun _ _ w => (o.e5, w)
  GetAvailableSpace := fun p _ => space p
  GetAvailableSpaceBlock := fun p _ => spaceBlock p
  CleanDir := fun _ w => w
  MustParse := wholeQuantity
  AsInt64 := heldAsInt64
  urlParse := fun s => some (URL.mk s)

/-- The mock provider before any call, with the given answers. -/
def newMock (infoResponse transferResponse processResponse : ProcessingPhase)
    (url : Option URL) : MockDataProvider :=
  MockDataProvider.mk infoResponse transferResponse processResponse url "" []

/-- The fake qemu operations of the ResizeImage table: Info reports the small image. -/
def fakeInfoRetOps (expected : Quantity) : fakeQEMUOperations :=
  fakeQEMUOperations.mk none none (some fakeSmallImageInfo, none) none none (some expected)

/-! ## Vocabulary of the statements -/

/-- The phase constants declared in data-processor.go. -/
def definedPhases : List ProcessingPhase :=
  [Info, Transfer, TransferTarget, Process, Convert, Resize, Complete, Error]

/-- The source call that the switch of `ProcessData` makes in a source-driven
phase, read off its first four cases: `r` is the answer of that call together
with the state after it. -/
def SourceCall (env : Env W) (dp : DataProcessor) (st : Sys W)
    (r : (ProcessingPhase × Option GoError) × Sys W) : Prop :=
  (dp.currentPhase = Info ∧ r = callSourceInfo env st) ∨
  (dp.currentPhase = Transfer ∧ r = callSourceTransfer env dp.scratchDataDir st) ∨
  (dp.currentPhase = TransferTarget ∧ r = callSourceTransfer env dp.dataDir st) ∨
  (dp.currentPhase = Process ∧ r = callSourceProcess env st)

/-- The processor of the unit tests after `NewDataProcessor(mdp, "dest", "dataDir",
"scratchDataDir", "1G")` when neither directory exists: phase Info and an
available space of -1. -/
def testProcessor : DataProcessor :=
  DataProcessor.mk Info "dest" "dataDir" "scratchDataDir" "1G" (-1)

/-- Fake qemu operations that all succeed, Info reporting the small image. -/
def fakeOpsOk : fakeQEMUOperations :=
  fakeQEMUOperations.mk none none (some fakeSmallImageInfo, none) none none none

/-- Fake qemu operations that all fail, as `NewQEMUAllErrors` of the tests. -/
def fakeOpsAllErrors : fakeQEMUOperations :=
  fakeQEMUOperations.mk (some (GoError.created "qemu should not be called"))
    (some (GoError.created "qemu should not be called"))
    (none, some (GoError.created "qemu should not be called"))
    (some (GoError.created "qemu should not be called"))
    (some (GoError.created "qemu should not be called")) none

/-- The processor of the unit test "should call Convert after Process phase":
the scratch directory is a temporary directory that exists. -/
def convertTestProcessor : DataProcessor :=
  DataProcessor.mk Info "dest" "dataDir" "/tmp/scratch" "1G" (-1)

/-- Available space of the unit test "should call Convert after Process phase":
only the scratch directory exists. -/
def convertTestSpace (path : String) : Int :=
  if path = "/tmp/scratch" then 4096 else -1

/-- A source that never answers the phase Complete together with a non-nil
error, whatever its state and whatever path it is given. -/
def CompleteWithoutError (env : Env W) : Prop :=
  (∀ w, (env.sourceInfo w).1.1 = Complete → (env.sourceInfo w).1.2 = none) ∧
  (∀ path w, (env.sourceTransfer path w).1.1 = Complete →
    (env.sourceTransfer path w).1.2 = none) ∧
  (∀ w, (env.sourceProcess w).1.1 = Complete → (env.sourceProcess w).1.2 = none)

/-! ## Construction of the processor -/

/-- The method `calculateTargetSize`: the available space of the file system at
`dataDir` when that is positive and of the block device `dataFile` otherwise,
made into a quantity by `NewScaledQuantity(.., 0)`; when a size is requested,
the quantity that `MinQuantity` returns of it and the parsed size; the result
is what `AsInt64` answers for that quantity as it is held, the second result
of `AsInt64` being dropped. -/
def calculateTargetSize (env : Env W) (dp : DataProcessor) (w : W) : Except Panic Int :=
  let targetQuantity :=
    if env.GetAvailableSpace dp.dataDir w > 0 then
      HeldQuantity.scaled (env.GetAvailableSpace dp.dataDir w) 0
    else
      HeldQuantity.scaled (env.GetAvailableSpaceBlock dp.dataFile w) 0
  if dp.requestImageSize ≠ "" then
    match env.MustParse dp.requestImageSize with
    | none => Except.error (Panic.mustParse dp.requestImageSize)
    | some number =>
      let newImageSizeQuantity := HeldQuantity.parsed dp.requestImageSize number
      let minQuantity := HeldQuantity.MinQuantity targetQuantity newImageSizeQuantity
      Except.ok (env.AsInt64 minQuantity).1
  else
    Except.ok (env.AsInt64 targetQuantity).1

/-- NewDataProcessor creates a new instance of a data processor: the phase is
Info and the available space is calculated before doing anything. -/
def NewDataProcessor (env : Env W) (dataFile dataDir scratchDataDir requestImageSize : String)
    (w : W) : Except Panic DataProcessor :=
  let dp := DataProcessor.mk Info dataFile dataDir scratchDataDir requestImageSize 0
  match calculateTargetSize env dp w with
  | Except.error p => Except.error p
  | Except.ok targetSize => Except.ok { dp with availableSpace := targetSize }

/-- The phase Pause of the specification; data-processor.go declares no such
constant and its switch has no case for it. -/
def Pause : ProcessingPhase := "Pause"

/-- Available space of a test target on a file system: the data directory "/data"
has 2048 bytes free, nothing else exists. -/
def fsTestSpace (path : String) : Int :=
  if path = "/data" then 2048 else -1

/-- The state before the run of the unit test "should call Convert after Process
phase": the mock answers TransferTarget, Process and Convert, nothing was called. -/
def convertTestStart : Sys MockDataProvider :=
  Sys.mk (newMock TransferTarget Process Convert (some (URL.mk "http://fakeurl-notreal.fake"))) []

/-- The state after the run of the unit test "should call Convert after Process
phase": what the mock recorded and the calls made, in order. -/
def convertTestEnd : Sys MockDataProvider :=
  Sys.mk (MockDataProvider.mk TransferTarget Process Convert
      (some (URL.mk "http://fakeurl-notreal.fake")) "dataDir" [Info, Transfer, Process])
    [Event.sourceInfo, Event.sourceTransfer "dataDir", Event.sourceProcess,
      Event.sourceGetURL,
      Event.qemuValidate (some (URL.mk "http://fakeurl-notreal.fake")) (-1),
      Event.qemuConvertToRawStream (some (URL.mk "http://fakeurl-notreal.fake")) "dest",
      Event.qemuInfo (some (URL.mk "dest")), Event.qemuResize "dest" (-1),
      Event.cleanDir "/tmp/scratch"]

/-- The processor of the resize unit tests on a file system: the data file "dest"
is not a block device, the requested size is "1G", the available space 2048. -/
def resizeTestProcessor : DataProcessor :=
  DataProcessor.mk Resize "dest" "/data" "scratchDataDir" "1G" 2048

/-- Available space of a large target on a file system: the data directory
"/data" has 200Ti bytes free, nothing else exists. -/
def largeTestSpace (path : String) : Int :=
  if path = "/data" then 219902325555200 else -1

/-- A world made of the files on disk, each a directory with a file name. -/
abbrev Files := List (String × String)

/-- The environment of a source that stores what it transfers: Info answers
Transfer, Transfer writes the file "image" into the directory it is given and
answers Process, Process answers Complete; a directory has space exactly when
it is the scratch directory "/tmp/scratch", and `CleanDir` removes the files
of the directory it is given. -/
def storingEnv : Env Files where
  sourceInfo := fun w => ((Transfer, none), w)
  sourceTransfer := fun path w => ((Process, none), w ++ [(path, "image")])
  sourceProcess := fun w => ((Complete, none), w)
  sourceGetURL := fun w => (none, w)
  sourceClose := fun w => (none, w)
  qemuConvertToRawStream := fun _ _ w => (none, w)
  qemuResize := fun _ _ w => (none, w)
  qemuInfo := fun _ w => ((some fakeSmallImageInfo, none), w)
  qemuValidate := fun _ _ w => (none, w)
  GetAvailableSpace := fun p _ => convertTestSpace p
  GetAvailableSpaceBlock := fun _ _ => -1
  CleanDir := fun path w => w.filter (fun f => decide (f.1 ≠ path))
  MustParse := wholeQuantity
  AsInt64 := heldAsInt64
  urlParse := fun s => some (URL.mk s)

end Importer

/-!
# Pretty errors (pkg/utils/errors/errors.go)

An error message with a stack trace pruned to the frames of this project.  The
frames come from the Go runtime; a `runtime.Frames` iterator is the list of
the frames it still has to deliver, in capture order.
-/

namespace Errors

/-- The part of `runtime.Frame` that the package reads. -/
structure Frame where
  Function : String
  File : String
  Line : Int
deriving DecidableEq, Repr

/-- repoRoot is used to limit frame processing to the frames of this project. -/
def repoRoot : String := "containerized-data-importer"

/-- Whether the characters `sub` open the characters `s`. -/
def startsWith : List Char → List Char → Bool
  | _, [] => true
  | [], _ :: _ => false
  | c :: cs, p :: ps => c == p && startsWith cs ps

/-- Whether the characters `sub` occur in `s` as a contiguous run. -/
def containsChars : List Char → List Char → Bool
  | [], sub => startsWith [] sub
  | c :: cs, sub => startsWith (c :: cs) sub || containsChars cs sub

/-- The library function `strings.Contains`. -/
def Contains (s substr : String) : Bool :=
  containsChars s.toList substr.toList

/-- The loop of `frameUnstack` over the frames the iterator still holds, `tr`
being the slice built so far.  `frames.Next()` delivers the first frame and
`more`, which tells whether another frame follows; on an exhausted iterator it
delivers the zero frame, whose file is empty, and the loop breaks. -/
def frameUnstackLoop : List Frame → List Frame → List Frame
  | [], tr => tr
  | f :: rest, tr =>
    let more := !rest.isEmpty
    if !Contains f.File repoRoot then
      tr
    else if !more then
      tr
    else
      frameUnstackLoop rest (tr ++ [f])

/-- The function `frameUnstack`: pops frames from the iterator and stores them,
until a frame belongs to some external package. -/
def frameUnstack (frames : List Frame) : List Frame :=
  frameUnstackLoop frames []

/-- The type `trace`: the formatted lines of the stack trace. -/
structure trace where
  traceSlice : List String
deriving DecidableEq, Repr

/-- The method `trace.String`: the lines, concatenated in order. -/
def trace.String (t : trace) : String :=
  t.traceSlice.foldl (fun outputTrace line => outputTrace ++ line) ""

/-- The line of one frame, `fmt.Sprintf("\t=> %s(L%d)\n", f.Function, f.Line)`. -/
def frameLine (f : Frame) : String :=
  "\t=> " ++ f.Function ++ "(L" ++ toString f.Line ++ ")\n"

/-- The loop of `newTrace`, `for i := len(fs) - 1; i >= 0; i--`: `k` is `i + 1`
and `ts` the slice built so far. -/
def newTraceLoop (fs : List Frame) : Nat → List String → List String
  | 0, ts => ts
  | i + 1, ts => newTraceLoop fs i (ts ++ [frameLine (fs.getD i (Frame.mk "" "" 0))])

/-- The function `newTrace`: the heading, then one line per frame, from the
last frame of `fs` to the first. -/
def newTrace (fs : List Frame) : trace :=
  trace.mk (newTraceLoop fs fs.length ["\tStack Trace:\n"])

/-- The type `prettyError`: a message and the stack trace generated for it
(`newError` always sets `traceStack`). -/
structure prettyError where
  message : String
  traceStack : trace
  frameStack : List Frame
deriving DecidableEq, Repr

/-- The method `Error`, `fmt.Sprintf("ERROR: %v\n%s", e.message, e.traceStack)`. -/
def prettyError.Error (e : prettyError) : String :=
  "ERROR: " ++ e.message ++ "\n" ++ e.traceStack.String

/-- The method `String`, which returns `e.Error()`. -/
def prettyError.String (e : prettyError) : String :=
  e.Error

/-- The function `newError` once the runtime has captured `frames` (what
`runtime.CallersFrames` delivers for the program counters past `skip`). -/
def newError (errMsg : String) (frames : List Frame) : prettyError :=
  let fs := frameUnstack frames
  let st := newTrace fs
  prettyError.mk errMsg st fs

/-- A frame of this project, for the examples. -/
def projectFrame (function : String) (line : Int) : Frame :=
  Frame.mk function "/go/src/kubevirt.io/containerized-data-importer/pkg/importer/util.go" line

/-- A frame of the Go runtime, for the examples. -/
def runtimeFrame : Frame :=
  Frame.mk "runtime.goexit" "/usr/local/go/src/runtime/asm_amd64.s" 1357

/-- The library function `strings.TrimRight`: `s` without its trailing
characters that are in `cutset`. -/
def TrimRight (s cutset : String) : String :=
  String.mk (s.toList.rdropWhile (fun c => cutset.toList.contains c))

/-- The function `Err`: a pretty error for `msg` with its trailing new lines
trimmed; `frames` is what the runtime captures at the caller. -/
def Err (msg : String) (frames : List Frame) : prettyError :=
  newError (TrimRight msg "\n") frames

/-- The function `Errf`: as `Err`, for the string that `fmt.Sprintf` formats
from the pattern and the arguments; the formatter is a parameter. -/
def Errf {α : Type} (Sprintf : String → List α → String) (pattern : String) (args : List α)
    (frames : List Frame) : prettyError :=
  newError (TrimRight (Sprintf pattern args) "\n") frames

end Errors

/-!
# Validation of the filesystem overhead (pkg/operator/resources/cluster/cdiconfig.go)

The CDIConfig resource definition gives the `filesystemOverhead` fields, `global`
and the values of `storageClass`, in the spec and in the status of both served
versions, one and the same validation pattern.
-/

namespace CDIConfig

/-- The `Pattern` of the filesystemOverhead fields, the same text at each of its
eight occurrences in `createCDIConfigCRD`. -/
def overheadPattern : String := "^(0(?:\\.\\d\x7b1,3\x7d)?|1)$"

/-- Whether a string matches `overheadPattern`, read off the pattern: the whole
string is "1", or it is "0", optionally followed by a dot and one to three
decimal digits. -/
def matchesOverheadPattern (s : String) : Bool :=
  match s.toList with
  | ['1'] => true
  | '0' :: rest =>
    match rest with
    | [] => true
    | '.' :: ds => decide (1 ≤ ds.length ∧ ds.length ≤ 3) && ds.all Char.isDigit
    | _ => false
  | _ => false

/-- A plain decimal numeral as a fraction: the numerator and the denominator, a
power of ten, of `digits` or `digits.digits`; `none` for any other string. -/
def decimalParts (s : String) : Option (Nat × Nat) :=
  let whole := s.toList.takeWhile Char.isDigit
  if whole = [] then none
  else
    match s.toList.dropWhile Char.isDigit with
    | [] => some (Importer.digitsValue whole, 1)
    | '.' :: fraction =>
      if fraction ≠ [] ∧ fraction.all Char.isDigit = true then
        some (Importer.digitsValue whole * 10 ^ fraction.length +
          Importer.digitsValue fraction, 10 ^ fraction.length)
      else none
    | _ => none

/-- The decimal value that a numeral denotes. -/
def decimalValue (s : String) : Option ℚ :=
  (decimalParts s).map (fun p => (p.1 : ℚ) / (p.2 : ℚ))

end CDIConfig

/-!
# The concurrency gate of the upload server

The server itself (pkg/uploadserver/uploadserver.go) is not among the sources,
only its tests are; the gate is modelled from the specification.  A request is
handled in two atomic steps, its admission at the gate and the return of the
processor, so that several requests can be in progress at once.
-/

namespace UploadServer

/-- Modelled from the spec: the error kinds of the error handling design, which
the upload server maps to HTTP status codes; the server's own error values are
missing from the sources. -/
inductive ErrorKind where
  | RequiresScratchSpace
  | InvalidPath
  | UnknownPhase
  | BackingFileNotAllowed
  | UnsupportedFormat
  | SourceTooLarge
  | ConversionFailed
  | ResizeShrinkRefused
  | ResizeFailed
  | Unauthorized
  | Busy
  | Conflict
  | StreamError
deriving DecidableEq, Repr

/-- Modelled from the spec: the mapping of errors to HTTP status of the missing
upload handler, "RequiresScratchSpace/SourceTooLarge → 400; Unauthorized → 401;
Busy → 503; Conflict → 409; everything else → 500". -/
def statusOfError : ErrorKind → Nat
  | ErrorKind.RequiresScratchSpace => 400
  | ErrorKind.SourceTooLarge => 400
  | ErrorKind.Unauthorized => 401
  | ErrorKind.Busy => 503
  | ErrorKind.Conflict => 409
  | _ => 500

/-- The upload endpoints: synchronous or asynchronous, raw body or form. -/
inductive Endpoint where
  | sync
  | async
  | formSync
  | formAsync
deriving DecidableEq, Repr

/-- Modelled from the spec: the flags `uploading` and `done` of the missing
`uploadServerApp`, with two counters kept for the statements: the uploads
admitted and not yet returned, and the processor runs started. -/
structure Server where
  uploading : Bool
  done : Bool
  inFlight : Nat
  processorRuns : Nat
deriving DecidableEq, Repr

/-- Modelled from the spec: the server that `NewUploadServer` returns, neither
uploading nor done. -/
def newServer : Server := Server.mk false false 0 0

/-- What happens at the server: an upload POST reaches the gate, or the
processor run of an admitted upload returns, with nil or an error. -/
inductive Action where
  | post (endpoint : Endpoint)
  | processorReturns (err : Option ErrorKind)
deriving DecidableEq, Repr

/-- Modelled from the spec: the concurrency gate of the missing upload handler.
A POST is answered 503 when `uploading`, 409 when `done`, and is otherwise
admitted: `uploading` is set and the processor started, with no response yet.
When the processor of an admitted upload returns, `uploading` is cleared, `done`
is set on success, and the response is 200 or the status of the error. -/
def step (s : Server) : Action → Server × Option Nat
  | Action.post _ =>
    if s.uploading then (s, some 503)
    else if s.done then (s, some 409)
    else
      ({ s with uploading := true, inFlight := s.inFlight + 1,
                processorRuns := s.processorRuns + 1 }, none)
  | Action.processorReturns err =>
    if s.inFlight = 0 then (s, none)
    else
      match err with
      | none => ({ s with uploading := false, done := true, inFlight := s.inFlight - 1 }, some 200)
      | some e => ({ s with uploading := false, inFlight := s.inFlight - 1 }, some (statusOfError e))

/-- The server after a sequence of actions. -/
def run (s : Server) (actions : List Action) : Server :=
  actions.foldl (fun t a => (step t a).1) s

/-- Modelled from the spec: one upload request handled from start to end with
nothing in between, as `ServeHTTP` of the missing handler does in the unit
tests: the gate, then the processor, whose result is `err`. -/
def handleUpload (s : Server) (endpoint : Endpoint) (err : Option ErrorKind) : Server × Option Nat :=
  match (step s (Action.post endpoint)).2 with
  | some status => ((step s (Action.post endpoint)).1, some status)
  | none => step (step s (Action.post endpoint)).1 (Action.processorReturns err)

end UploadServer

namespace Importer

variable {W : Type}

/-! ## Quantities -/

theorem NewScaledQuantity_zero (v : Int) : NewScaledQuantity v 0 = (v : ℚ) := by
  simp [NewScaledQuantity]

theorem Cmp_eq_zero_iff (a b : Quantity) : Cmp a b = 0 ↔ a = b := by
  unfold Cmp
  by_cases h1 : a < b
  · simp [h1, ne_of_lt h1]
  · by_cases h2 : a = b
    · simp [h2]
    · simp [h1, h2]

theorem Cmp_eq_one_iff (a b : Quantity) : Cmp a b = 1 ↔ b < a := by
  unfold Cmp
  by_cases h1 : a < b
  · simp [h1, not_lt_of_lt h1]
  · by_cases h2 : a = b
    · simp [h2]
    · have h3 : b < a := lt_of_le_of_ne (not_lt.mp h1) (Ne.symm h2)
      simp [h1, h2, h3]

theorem MinQuantity_eq_min (a b : Quantity) : MinQuantity a b = min a b := by
  unfold MinQuantity
  by_cases h : a < b
  · rw [if_pos ((Cmp_eq_one_iff b a).mpr h), min_eq_left (le_of_lt h)]
  · rw [if_neg (fun hc => h ((Cmp_eq_one_iff b a).mp hc)), min_eq_right (not_lt.mp h)]

/-! ## ResizeImage -/

/-- C1: for every data file, every non-empty size string `s` that parses to `q` and
every total target space `t`, when `QemuOps.Info` succeeds with an image of
virtual size `v`, `ResizeImage` works with `m = min t q`: it first calls `Info`
on the parsed data file; if `v = m` it returns nil and `Info` is the only call
made; otherwise it makes exactly one further call, `Resize(dataFile, m)`, and
returns what that call returns. -/
theorem ResizeImage_resizes_to_min (env : Env W) (dataFile s : String) (t : Int)
    (st : Sys W) (info : ImgInfo) (q : Quantity)
    (hs : s ≠ "") (hq : env.MustParse s = some q)
    (hinfo : (env.qemuInfo (env.urlParse dataFile) st.world).1 = (some info, none)) :
    (((info.VirtualSize : ℚ) = min (t : ℚ) q →
        ResizeImage env dataFile s t st =
          (Except.ok none,
            Sys.mk (env.qemuInfo (env.urlParse dataFile) st.world).2
              (st.trace ++ [Event.qemuInfo (env.urlParse dataFile)]))) ∧
      ((info.VirtualSize : ℚ) ≠ min (t : ℚ) q →
        ResizeImage env dataFile s t st =
          (Except.ok (env.qemuResize dataFile (min (t : ℚ) q)
              (env.qemuInfo (env.urlParse dataFile) st.world).2).1,
            Sys.mk (env.qemuResize dataFile (min (t : ℚ) q)
              (env.qemuInfo (env.urlParse dataFile) st.world).2).2
              (st.trace ++ [Event.qemuInfo (env.urlParse dataFile),
                Event.qemuResize dataFile (min (t : ℚ) q)])))) := by
  have h1 : (callQemuInfo env (env.urlParse dataFile) st).1 = (some info, none) := hinfo
  have h11 : (callQemuInfo env (env.urlParse dataFile) st).1.1 = some info := by rw [h1]
  have h12 : (callQemuInfo env (env.urlParse dataFile) st).1.2 = none := by rw [h1]
  constructor
  · intro hv
    unfold ResizeImage
    simp only [h11, h12, hq, hs, ne_eq, not_false_eq_true, if_true, MinQuantity_eq_min,
      NewScaledQuantity_zero, Cmp_eq_zero_iff, hv]
    rfl
  · intro hv
    unfold ResizeImage
    simp only [h11, h12, hq, hs, ne_eq, not_false_eq_true, if_true, MinQuantity_eq_min,
      NewScaledQuantity_zero, Cmp_eq_zero_iff, hv, if_false]
    simp [callQemuResize, callQemuInfo, Sys.call]

/-- The three passing rows of the ResizeImage table of the tests, the image having
virtual size 1024: size "1500" with space 2048 resizes to 1500, size "2500" with
space 2048 resizes to 2048, and size "1024" with space 1024 does not resize. -/
theorem ResizeImage_resizes_to_min_witness :
    ("1500" ≠ "" ∧ wholeQuantity "1500" = some 1500 ∧ wholeQuantity "2500" = some 2500 ∧
      wholeQuantity "1024" = some 1024) ∧
    ResizeImage (testEnv (fakeInfoRetOps 1500) (fun _ => -1) (fun _ => -1)) "dest" "1500" 2048
        (Sys.mk (newMock "" "" "" none) []) =
      (Except.ok none, Sys.mk (newMock "" "" "" none)
        [Event.qemuInfo (some (URL.mk "dest")), Event.qemuResize "dest" 1500]) ∧
    ResizeImage (testEnv (fakeInfoRetOps 2048) (fun _ => -1) (fun _ => -1)) "dest" "2500" 2048
        (Sys.mk (newMock "" "" "" none) []) =
      (Except.ok none, Sys.mk (newMock "" "" "" none)
        [Event.qemuInfo (some (URL.mk "dest")), Event.qemuResize "dest" 2048]) ∧
    ResizeImage (testEnv (fakeInfoRetOps 1024) (fun _ => -1) (fun _ => -1)) "dest" "1024" 1024
        (Sys.mk (newMock "" "" "" none) []) =
      (Except.ok none, Sys.mk (newMock "" "" "" none)
        [Event.qemuInfo (some (URL.mk "dest"))]) :=
  ⟨⟨by decide, by decide, by decide, by decide⟩,
    (ResizeImage_resizes_to_min (testEnv (fakeInfoRetOps 1500) (fun _ => -1) (fun _ => -1))
      "dest" "1500" 2048 (Sys.mk (newMock "" "" "" none) []) fakeSmallImageInfo 1500
      (by decide) (by decide) rfl).2 (by decide),
    (ResizeImage_resizes_to_min (testEnv (fakeInfoRetOps 2048) (fun _ => -1) (fun _ => -1))
      "dest" "2500" 2048 (Sys.mk (newMock "" "" "" none) []) fakeSmallImageInfo 2500
      (by decide) (by decide) rfl).2 (by decide),
    (ResizeImage_resizes_to_min (testEnv (fakeInfoRetOps 1024) (fun _ => -1) (fun _ => -1))
      "dest" "1024" 1024 (Sys.mk (newMock "" "" "" none) []) fakeSmallImageInfo 1024
      (by decide) (by decide) rfl).1 (by decide)⟩

/-! ## The loop, one phase at a time -/

theorem deferredCleanDir_trace (env : Env W) (dp : DataProcessor) (entry st : Sys W) :
    (deferredCleanDir env dp entry st).trace =
      st.trace ++ (if env.GetAvailableSpace dp.scratchDataDir entry.world > 0
        then [Event.cleanDir dp.scratchDataDir] else []) := by
  unfold deferredCleanDir
  split <;> simp [callCleanDir, Sys.call]

theorem ProcessData_of_loop (env : Env W) (fuel : Nat) (dp dp1 : DataProcessor) (st st1 : Sys W)
    (out : Except Panic (Option GoError))
    (h : ProcessDataLoop env fuel dp none st = some (out, dp1, st1)) :
    ProcessData env fuel dp st = some (out, dp1, deferredCleanDir env dp st st1) := by
  simp [ProcessData, h]

theorem ProcessDataLoop_Complete (env : Env W) (fuel : Nat) (dp : DataProcessor)
    (err : Option GoError) (st : Sys W) (h : dp.currentPhase = Complete) :
    ProcessDataLoop env (fuel + 1) dp err st = some (Except.ok err, dp, st) := by
  simp [ProcessDataLoop, h]

theorem ProcessDataLoop_Info (env : Env W) (fuel : Nat) (dp : DataProcessor)
    (err : Option GoError) (st : Sys W) (h : dp.currentPhase = Info) :
    ProcessDataLoop env (fuel + 1) dp err st =
      match (callSourceInfo env st).1.2 with
      | some e => some (Except.ok (some e),
          { dp with currentPhase := (callSourceInfo env st).1.1 }, (callSourceInfo env st).2)
      | none => ProcessDataLoop env fuel
          { dp with currentPhase := (callSourceInfo env st).1.1 } none (callSourceInfo env st).2 := by
  have hne : ¬ (Info = Complete) := by decide
  simp only [ProcessDataLoop, phaseSwitch, h, hne, if_false, if_true]

theorem ProcessDataLoop_Transfer (env : Env W) (fuel : Nat) (dp : DataProcessor)
    (err : Option GoError) (st : Sys W) (h : dp.currentPhase = Transfer) :
    ProcessDataLoop env (fuel + 1) dp err st =
      match (if (callSourceTransfer env dp.scratchDataDir st).1.2 = some ErrInvalidPath
          then some ErrRequiresScratchSpace
          else (callSourceTransfer env dp.scratchDataDir st).1.2) with
      | some e => some (Except.ok (some e),
          { dp with currentPhase := (callSourceTransfer env dp.scratchDataDir st).1.1 },
          (callSourceTransfer env dp.scratchDataDir st).2)
      | none => ProcessDataLoop env fuel
          { dp with currentPhase := (callSourceTransfer env dp.scratchDataDir st).1.1 } none
          (callSourceTransfer env dp.scratchDataDir st).2 := by
  have h1 : ¬ (Transfer = Complete) := by decide
  have h2 : ¬ (Transfer = Info) := by decide
  by_cases hc : (callSourceTransfer env dp.scratchDataDir st).1.2 = some ErrInvalidPath
  · simp only [ProcessDataLoop, phaseSwitch, h, h1, h2, hc, if_false, if_true]
  · simp only [ProcessDataLoop, phaseSwitch, h, h1, h2, hc, if_false, if_true]

theorem ProcessDataLoop_TransferTarget (env : Env W) (fuel : Nat) (dp : DataProcessor)
    (err : Option GoError) (st : Sys W) (h : dp.currentPhase = TransferTarget) :
    ProcessDataLoop env (fuel + 1) dp err st =
      match (callSourceTransfer env dp.dataDir st).1.2 with
      | some e => some (Except.ok (some e),
          { dp with currentPhase := (callSourceTransfer env dp.dataDir st).1.1 },
          (callSourceTransfer env dp.dataDir st).2)
      | none => ProcessDataLoop env fuel
          { dp with currentPhase := (callSourceTransfer env dp.dataDir st).1.1 } none
          (callSourceTransfer env dp.dataDir st).2 := by
  have h1 : ¬ (TransferTarget = Complete) := by decide
  have h2 : ¬ (TransferTarget = Info) := by decide
  have h3 : ¬ (TransferTarget = Transfer) := by decide
  simp only [ProcessDataLoop, phaseSwitch, h, h1, h2, h3, if_false, if_true]

theorem ProcessDataLoop_Process (env : Env W) (fuel : Nat) (dp : DataProcessor)
    (err : Option GoError) (st : Sys W) (h : dp.currentPhase = Process) :
    ProcessDataLoop env (fuel + 1) dp err st =
      match (callSourceProcess env st).1.2 with
      | some e => some (Except.ok (some e),
          { dp with currentPhase := (callSourceProcess env st).1.1 }, (callSourceProcess env st).2)
      | none => ProcessDataLoop env fuel
          { dp with currentPhase := (callSourceProcess env st).1.1 } none
          (callSourceProcess env st).2 := by
  have h1 : ¬ (Process = Complete) := by decide
  have h2 : ¬ (Process = Info) := by decide
  have h3 : ¬ (Process = Transfer) := by decide
  have h4 : ¬ (Process = TransferTarget) := by decide
  simp only [ProcessDataLoop, phaseSwitch, h, h1, h2, h3, h4, if_false, if_true]

theorem ProcessDataLoop_Convert (env : Env W) (fuel : Nat) (dp : DataProcessor)
    (err : Option GoError) (st : Sys W) (h : dp.currentPhase = Convert) :
    ProcessDataLoop env (fuel + 1) dp err st =
      match (convert env dp (callSourceGetURL env st).1 (callSourceGetURL env st).2).1.2 with
      | some e => some (Except.ok (some e),
          { dp with currentPhase :=
              (convert env dp (callSourceGetURL env st).1 (callSourceGetURL env st).2).1.1 },
          (convert env dp (callSourceGetURL env st).1 (callSourceGetURL env st).2).2)
      | none => ProcessDataLoop env fuel
          { dp with currentPhase :=
              (convert env dp (callSourceGetURL env st).1 (callSourceGetURL env st).2).1.1 } none
          (convert env dp (callSourceGetURL env st).1 (callSourceGetURL env st).2).2 := by
  have h1 : ¬ (Convert = Complete) := by decide
  have h2 : ¬ (Convert = Info) := by decide
  have h3 : ¬ (Convert = Transfer) := by decide
  have h4 : ¬ (Convert = TransferTarget) := by decide
  have h5 : ¬ (Convert = Process) := by decide
  simp only [ProcessDataLoop, phaseSwitch, h, h1, h2, h3, h4, h5, if_false, if_true]

theorem ProcessDataLoop_Resize (env : Env W) (fuel : Nat) (dp : DataProcessor)
    (err : Option GoError) (st : Sys W) (h : dp.currentPhase = Resize) :
    ProcessDataLoop env (fuel + 1) dp err st =
      match (resize env dp st).1 with
      | Except.error p => some (Except.error p, dp, (resize env dp st).2)
      | Except.ok (phase, some e) =>
          some (Except.ok (some e), { dp with currentPhase := phase }, (resize env dp st).2)
      | Except.ok (phase, none) =>
          ProcessDataLoop env fuel { dp with currentPhase := phase } none (resize env dp st).2 := by
  have h1 : ¬ (Resize = Complete) := by decide
  have h2 : ¬ (Resize = Info) := by decide
  have h3 : ¬ (Resize = Transfer) := by decide
  have h4 : ¬ (Resize = TransferTarget) := by decide
  have h5 : ¬ (Resize = Process) := by decide
  have h6 : ¬ (Resize = Convert) := by decide
  simp only [ProcessDataLoop, phaseSwitch, h, h1, h2, h3, h4, h5, h6, if_false, if_true]
  rcases hr : (resize env dp st).1 with p | ⟨phase, _ | e⟩ <;> simp

theorem ProcessDataLoop_unknown (env : Env W) (fuel : Nat) (dp : DataProcessor)
    (err : Option GoError) (st : Sys W)
    (h0 : dp.currentPhase ≠ Complete) (h1 : dp.currentPhase ≠ Info)
    (h2 : dp.currentPhase ≠ Transfer) (h3 : dp.currentPhase ≠ TransferTarget)
    (h4 : dp.currentPhase ≠ Process) (h5 : dp.currentPhase ≠ Convert)
    (h6 : dp.currentPhase ≠ Resize) :
    ProcessDataLoop env (fuel + 1) dp err st =
      some (Except.ok (some (unknownPhaseError dp.currentPhase)), dp, st) := by
  simp only [ProcessDataLoop, phaseSwitch, h0, h1, h2, h3, h4, h5, h6, if_false]

/-! ## Runs of ProcessData -/

/-- C2: when the processor is in its initial phase Info and the source answers
Info with Transfer (the scratch-transfer phase), the Transfer call that the run
makes, the one with the scratch directory, with Process, and the Process call
after it with Complete, all without error, then ProcessData, given fuel for four
evaluations of the loop condition or more, returns nil with the phase Complete;
the calls it made are exactly Info, Transfer(scratchDataDir), Process, in that
order, followed only by the deferred CleanDir when that was registered: Transfer
received the scratch directory and no qemu operation was invoked. -/
theorem ProcessData_scratch_path (env : Env W) (dp : DataProcessor) (st : Sys W) (n : Nat)
    (hphase : dp.currentPhase = Info)
    (hInfo : (env.sourceInfo st.world).1 = (Transfer, none))
    (hTransfer :
      (env.sourceTransfer dp.scratchDataDir (env.sourceInfo st.world).2).1 = (Process, none))
    (hProcess :
      (env.sourceProcess
        (env.sourceTransfer dp.scratchDataDir (env.sourceInfo st.world).2).2).1 =
        (Complete, none)) :
    ProcessData env (n + 4) dp st =
      some (Except.ok none, { dp with currentPhase := Complete },
        deferredCleanDir env dp st
          (Sys.mk
            (env.sourceProcess
              (env.sourceTransfer dp.scratchDataDir (env.sourceInfo st.world).2).2).2
            (st.trace ++ [Event.sourceInfo, Event.sourceTransfer dp.scratchDataDir,
              Event.sourceProcess]))) := by
  apply ProcessData_of_loop
  have e1 : (callSourceInfo env st).1 = (Transfer, none) := hInfo
  rw [ProcessDataLoop_Info env (n + 3) dp none st hphase]
  simp only [e1]
  have e2 : (callSourceTransfer env dp.scratchDataDir (callSourceInfo env st).2).1 =
      (Process, none) := hTransfer
  have hne : (none : Option GoError) ≠ some ErrInvalidPath := by simp
  rw [ProcessDataLoop_Transfer env (n + 2) _ none _ rfl]
  simp only [e2, hne, if_false]
  have e3 : (callSourceProcess env
      (callSourceTransfer env dp.scratchDataDir (callSourceInfo env st).2).2).1 =
      (Complete, none) := hProcess
  rw [ProcessDataLoop_Process env (n + 1) _ none _ rfl]
  simp only [e3]
  rw [ProcessDataLoop_Complete env n _ none _ rfl]
  simp [callSourceProcess, callSourceTransfer, callSourceInfo, Sys.call]

/-- The first unit test: Info answers Transfer, Transfer answers Process, Process
answers Complete; the three calls are made and the transfer path is the scratch
directory. -/
theorem ProcessData_scratch_path_witness :
    ProcessData (testEnv fakeOpsOk (fun _ => -1) (fun _ => -1)) 4 testProcessor
        (Sys.mk (newMock Transfer Process Complete none) []) =
      some (Except.ok none, { testProcessor with currentPhase := Complete },
        Sys.mk (MockDataProvider.mk Transfer Process Complete none "scratchDataDir"
            [Info, Transfer, Process])
          [Event.sourceInfo, Event.sourceTransfer "scratchDataDir", Event.sourceProcess]) :=
  ProcessData_scratch_path (testEnv fakeOpsOk (fun _ => -1) (fun _ => -1)) testProcessor
    (Sys.mk (newMock Transfer Process Complete none) []) 0 rfl rfl rfl rfl

/-- C3: when the processor is in its initial phase Info and the source answers
Info with TransferTarget, the Transfer call that the run makes, the one with
the data directory, with Process, and the Process call after it with Complete,
all without error, then ProcessData, given fuel for four evaluations of the loop
condition or more, returns nil with the phase Complete; the calls it made are
exactly Info, Transfer(dataDir), Process, in that order, followed only by the
deferred CleanDir when that was registered: in the TransferTarget phase Transfer
receives the data directory, whatever the scratch directory is. -/
theorem ProcessData_target_path (env : Env W) (dp : DataProcessor) (st : Sys W) (n : Nat)
    (hphase : dp.currentPhase = Info)
    (hInfo : (env.sourceInfo st.world).1 = (TransferTarget, none))
    (hTransfer :
      (env.sourceTransfer dp.dataDir (env.sourceInfo st.world).2).1 = (Process, none))
    (hProcess :
      (env.sourceProcess (env.sourceTransfer dp.dataDir (env.sourceInfo st.world).2).2).1 =
        (Complete, none)) :
    ProcessData env (n + 4) dp st =
      some (Except.ok none, { dp with currentPhase := Complete },
        deferredCleanDir env dp st
          (Sys.mk
            (env.sourceProcess
              (env.sourceTransfer dp.dataDir (env.sourceInfo st.world).2).2).2
            (st.trace ++ [Event.sourceInfo, Event.sourceTransfer dp.dataDir,
              Event.sourceProcess]))) := by
  apply ProcessData_of_loop
  have e1 : (callSourceInfo env st).1 = (TransferTarget, none) := hInfo
  rw [ProcessDataLoop_Info env (n + 3) dp none st hphase]
  simp only [e1]
  have e2 : (callSourceTransfer env dp.dataDir (callSourceInfo env st).2).1 =
      (Process, none) := hTransfer
  rw [ProcessDataLoop_TransferTarget env (n + 2) _ none _ rfl]
  simp only [e2]
  have e3 : (callSourceProcess env
      (callSourceTransfer env dp.dataDir (callSourceInfo env st).2).2).1 =
      (Complete, none) := hProcess
  rw [ProcessDataLoop_Process env (n + 1) _ none _ rfl]
  simp only [e3]
  rw [ProcessDataLoop_Complete env n _ none _ rfl]
  simp [callSourceProcess, callSourceTransfer, callSourceInfo, Sys.call]

/-- The second unit test: Info answers TransferTarget, Transfer answers Process,
Process answers Complete; the transfer path is the data directory. -/
theorem ProcessData_target_path_witness :
    ProcessData (testEnv fakeOpsOk (fun _ => -1) (fun _ => -1)) 4 testProcessor
        (Sys.mk (newMock TransferTarget Process Complete none) []) =
      some (Except.ok none, { testProcessor with currentPhase := Complete },
        Sys.mk (MockDataProvider.mk TransferTarget Process Complete none "dataDir"
            [Info, Transfer, Process])
          [Event.sourceInfo, Event.sourceTransfer "dataDir", Event.sourceProcess]) :=
  ProcessData_target_path (testEnv fakeOpsOk (fun _ => -1) (fun _ => -1)) testProcessor
    (Sys.mk (newMock TransferTarget Process Complete none) []) 0 rfl rfl rfl rfl

/-! ## A source call at any point of a run -/

theorem SourceCall_trace (env : Env W) (dp : DataProcessor) (st : Sys W)
    (r : (ProcessingPhase × Option GoError) × Sys W) (h : SourceCall env dp st r) :
    ∃ ev, ev.isSource = true ∧ r.2.trace = st.trace ++ [ev] := by
  rcases h with ⟨_, hr⟩ | ⟨_, hr⟩ | ⟨_, hr⟩ | ⟨_, hr⟩
  · exact ⟨Event.sourceInfo, rfl, by rw [hr]; rfl⟩
  · exact ⟨Event.sourceTransfer dp.scratchDataDir, rfl, by rw [hr]; rfl⟩
  · exact ⟨Event.sourceTransfer dp.dataDir, rfl, by rw [hr]; rfl⟩
  · exact ⟨Event.sourceProcess, rfl, by rw [hr]; rfl⟩

theorem SourceCall_loop (env : Env W) (fuel : Nat) (dp : DataProcessor) (err : Option GoError)
    (st : Sys W) (r : (ProcessingPhase × Option GoError) × Sys W)
    (h : SourceCall env dp st r) :
    ProcessDataLoop env (fuel + 1) dp err st =
      match (if dp.currentPhase = Transfer ∧ r.1.2 = some ErrInvalidPath
          then some ErrRequiresScratchSpace else r.1.2) with
      | some e => some (Except.ok (some e), { dp with currentPhase := r.1.1 }, r.2)
      | none => ProcessDataLoop env fuel { dp with currentPhase := r.1.1 } none r.2 := by
  rcases h with ⟨hp, hr⟩ | ⟨hp, hr⟩ | ⟨hp, hr⟩ | ⟨hp, hr⟩
  · have hne : ¬ (Info = Transfer) := by decide
    rw [ProcessDataLoop_Info env fuel dp err st hp, hr, hp]
    simp only [hne, false_and, if_false]
  · rw [ProcessDataLoop_Transfer env fuel dp err st hp, hr, hp]
    simp only [true_and]
  · have hne : ¬ (TransferTarget = Transfer) := by decide
    rw [ProcessDataLoop_TransferTarget env fuel dp err st hp, hr, hp]
    simp only [hne, false_and, if_false]
  · have hne : ¬ (Process = Transfer) := by decide
    rw [ProcessDataLoop_Process env fuel dp err st hp, hr, hp]
    simp only [hne, false_and, if_false]

theorem ProcessDataLoop_undispatched (env : Env W) (fuel : Nat) (dp : DataProcessor)
    (err : Option GoError) (st : Sys W)
    (h : dp.currentPhase ∉ [Info, Transfer, TransferTarget, Process, Convert, Resize, Complete]) :
    ProcessDataLoop env (fuel + 1) dp err st =
      some (Except.ok (some (unknownPhaseError dp.currentPhase)), dp, st) := by
  simp only [List.mem_cons, List.mem_singleton, not_or, List.mem_nil_iff, or_false] at h
  obtain ⟨h1, h2, h3, h4, h5, h6, h0⟩ := h
  exact ProcessDataLoop_unknown env fuel dp err st h0 h1 h2 h3 h4 h5 h6

/-- C4: at any point of a run (any processor state in a source-driven phase, any
history), if the source call of the current phase answers, without error, a
phase `p` that is not one of the defined phases, then ProcessData, given fuel
for two evaluations of the loop condition or more, returns the unknown-phase
error for `p`; the call that answered `p` is the last source or qemu call: the
only event after it is the deferred CleanDir when that was registered. -/
theorem ProcessData_unknown_phase (env : Env W) (dp : DataProcessor) (st : Sys W)
    (r : (ProcessingPhase × Option GoError) × Sys W) (n : Nat)
    (hcall : SourceCall env dp st r) (hnil : r.1.2 = none)
    (hp : r.1.1 ∉ definedPhases) :
    ProcessData env (n + 2) dp st =
        some (Except.ok (some (unknownPhaseError r.1.1)), { dp with currentPhase := r.1.1 },
          deferredCleanDir env dp st r.2) ∧
      (∃ ev, ev.isSource = true ∧ r.2.trace = st.trace ++ [ev]) ∧
      (deferredCleanDir env dp st r.2).trace = r.2.trace ++
        (if env.GetAvailableSpace dp.scratchDataDir st.world > 0
          then [Event.cleanDir dp.scratchDataDir] else []) := by
  refine ⟨?_, SourceCall_trace env dp st r hcall, deferredCleanDir_trace env dp st r.2⟩
  apply ProcessData_of_loop
  have hno : ¬ (dp.currentPhase = Transfer ∧ (none : Option GoError) = some ErrInvalidPath) := by
    simp
  rw [SourceCall_loop env (n + 1) dp none st r hcall, hnil, if_neg hno]
  simp only []
  have hp1 : ({ dp with currentPhase := r.1.1 } : DataProcessor).currentPhase ∉
      [Info, Transfer, TransferTarget, Process, Convert, Resize, Complete] := by
    intro hmem
    apply hp
    simp only [definedPhases, List.mem_cons, List.mem_singleton, List.mem_nil_iff,
      or_false] at hmem ⊢
    tauto
  exact ProcessDataLoop_undispatched env n _ none r.2 hp1

/-- The unit test "should error on Unknown phase": Info answers "invalidphase";
Info is the only call and the unknown-phase error is returned. -/
theorem ProcessData_unknown_phase_witness :
    ProcessData (testEnv fakeOpsOk (fun _ => -1) (fun _ => -1)) 2 testProcessor
        (Sys.mk (newMock "invalidphase" "" "" none) []) =
      some (Except.ok (some (GoError.created "Unknown processing phase invalidphase")),
        { testProcessor with currentPhase := "invalidphase" },
        Sys.mk (MockDataProvider.mk "invalidphase" "" "" none "" [Info])
          [Event.sourceInfo]) :=
  (ProcessData_unknown_phase (testEnv fakeOpsOk (fun _ => -1) (fun _ => -1)) testProcessor
    (Sys.mk (newMock "invalidphase" "" "" none) [])
    (callSourceInfo (testEnv fakeOpsOk (fun _ => -1) (fun _ => -1))
      (Sys.mk (newMock "invalidphase" "" "" none) [])) 0
    (Or.inl ⟨rfl, rfl⟩) rfl (by decide)).1

/-- C5: for every processor in the scratch-transfer phase (Transfer), at any
point of a run, if `source.Transfer(scratchDataDir)` fails with ErrInvalidPath
then ProcessData, given any fuel at all, terminates and returns
ErrRequiresScratchSpace, which is not ErrInvalidPath; that Transfer call is the
last source or qemu call, only the deferred CleanDir may follow it. -/
theorem ProcessData_requires_scratch_space (env : Env W) (dp : DataProcessor) (st : Sys W)
    (n : Nat) (hphase : dp.currentPhase = Transfer)
    (herr : (env.sourceTransfer dp.scratchDataDir st.world).1.2 = some ErrInvalidPath) :
    ProcessData env (n + 1) dp st =
        some (Except.ok (some ErrRequiresScratchSpace),
          { dp with currentPhase := (env.sourceTransfer dp.scratchDataDir st.world).1.1 },
          deferredCleanDir env dp st
            (Sys.mk (env.sourceTransfer dp.scratchDataDir st.world).2
              (st.trace ++ [Event.sourceTransfer dp.scratchDataDir]))) ∧
      ErrRequiresScratchSpace ≠ ErrInvalidPath := by
  refine ⟨?_, by decide⟩
  apply ProcessData_of_loop
  have e1 : (callSourceTransfer env dp.scratchDataDir st).1.2 = some ErrInvalidPath := herr
  rw [ProcessDataLoop_Transfer env n dp none st hphase, if_pos e1]
  rfl

/-- A scripted source whose Transfer to the scratch directory fails with
ErrInvalidPath: the run returns ErrRequiresScratchSpace after that one call. -/
theorem ProcessData_requires_scratch_space_witness :
    ProcessData (scriptedEnv fakeOpsAllErrors (fun _ => -1) (fun _ => -1)) 1
        { testProcessor with currentPhase := Transfer }
        (Sys.mk [(Error, some ErrInvalidPath)] [Event.sourceInfo]) =
      some (Except.ok (some ErrRequiresScratchSpace),
        { testProcessor with currentPhase := Error },
        Sys.mk [] [Event.sourceInfo, Event.sourceTransfer "scratchDataDir"]) :=
  (ProcessData_requires_scratch_space (scriptedEnv fakeOpsAllErrors (fun _ => -1) (fun _ => -1))
    { testProcessor with currentPhase := Transfer }
    (Sys.mk [(Error, some ErrInvalidPath)] [Event.sourceInfo]) 0 rfl rfl).1

/-- C6: at any point of a run (any processor state in a source-driven phase, any
history), if the source call of the current phase returns a non-nil error `e`,
then ProcessData, given any fuel at all, returns at once: the value returned is
`e` itself, except that ErrInvalidPath in the scratch-transfer phase is
returned as ErrRequiresScratchSpace, and it is never nil; the failed call is the
last source or qemu call (one event, not repeated), only the deferred CleanDir
may follow it. -/
theorem ProcessData_source_error (env : Env W) (dp : DataProcessor) (st : Sys W)
    (r : (ProcessingPhase × Option GoError) × Sys W) (e : GoError) (n : Nat)
    (hcall : SourceCall env dp st r) (herr : r.1.2 = some e) :
    ProcessData env (n + 1) dp st =
        some (Except.ok (some (if dp.currentPhase = Transfer ∧ e = ErrInvalidPath
            then ErrRequiresScratchSpace else e)),
          { dp with currentPhase := r.1.1 }, deferredCleanDir env dp st r.2) ∧
      (∃ ev, ev.isSource = true ∧ r.2.trace = st.trace ++ [ev]) ∧
      (deferredCleanDir env dp st r.2).trace = r.2.trace ++
        (if env.GetAvailableSpace dp.scratchDataDir st.world > 0
          then [Event.cleanDir dp.scratchDataDir] else []) := by
  refine ⟨?_, SourceCall_trace env dp st r hcall, deferredCleanDir_trace env dp st r.2⟩
  apply ProcessData_of_loop
  rw [SourceCall_loop env n dp none st r hcall, herr]
  by_cases hc : dp.currentPhase = Transfer ∧ e = ErrInvalidPath
  · have hc2 : dp.currentPhase = Transfer ∧ some e = some ErrInvalidPath := ⟨hc.1, by rw [hc.2]⟩
    rw [if_pos hc, if_pos hc2]
  · have hc2 : ¬ (dp.currentPhase = Transfer ∧ some e = some ErrInvalidPath) := by
      intro h
      exact hc ⟨h.1, Option.some.inj h.2⟩
    rw [if_neg hc, if_neg hc2]

/-- The unit test "should error on Transfer phase", at the point where Info has
answered TransferTarget: Transfer fails, its error is returned, and the trace
holds exactly Info and Transfer. -/
theorem ProcessData_source_error_witness :
    ProcessData (testEnv fakeOpsOk (fun _ => -1) (fun _ => -1)) 1
        { testProcessor with currentPhase := TransferTarget }
        (Sys.mk (MockDataProvider.mk TransferTarget Error Complete none "" [Info])
          [Event.sourceInfo]) =
      some (Except.ok (some (GoError.created "Transfer errored")),
        { testProcessor with currentPhase := Error },
        Sys.mk (MockDataProvider.mk TransferTarget Error Complete none "dataDir"
            [Info, Transfer])
          [Event.sourceInfo, Event.sourceTransfer "dataDir"]) :=
  (ProcessData_source_error (testEnv fakeOpsOk (fun _ => -1) (fun _ => -1))
    { testProcessor with currentPhase := TransferTarget }
    (Sys.mk (MockDataProvider.mk TransferTarget Error Complete none "" [Info])
      [Event.sourceInfo])
    (callSourceTransfer (testEnv fakeOpsOk (fun _ => -1) (fun _ => -1)) "dataDir"
      (Sys.mk (MockDataProvider.mk TransferTarget Error Complete none "" [Info])
        [Event.sourceInfo]))
    (GoError.created "Transfer errored") 0
    (Or.inr (Or.inr (Or.inl ⟨rfl, rfl⟩))) rfl).1

/-- The whole run of the unit test "should error on Transfer phase", from the
phase Info: two calls, Info and Transfer, and the error of Transfer. -/
theorem ProcessData_transfer_error_test :
    ProcessData (testEnv fakeOpsOk (fun _ => -1) (fun _ => -1)) 2 testProcessor
        (Sys.mk (newMock TransferTarget Error Complete none) []) =
      some (Except.ok (some (GoError.created "Transfer errored")),
        { testProcessor with currentPhase := Error },
        Sys.mk (MockDataProvider.mk TransferTarget Error Complete none "dataDir"
            [Info, Transfer])
          [Event.sourceInfo, Event.sourceTransfer "dataDir"]) := by
  rfl

/-! ## convert and resize -/

theorem convert_of_validate_error (env : Env W) (dp : DataProcessor) (url : Option URL)
    (st : Sys W) (e : GoError)
    (he : (env.qemuValidate url dp.availableSpace st.world).1 = some e) :
    convert env dp url st =
      ((Error, some (GoError.wrapped e "Image validation failed")),
        Sys.mk (env.qemuValidate url dp.availableSpace st.world).2
          (st.trace ++ [Event.qemuValidate url dp.availableSpace])) := by
  have h1 : (callQemuValidate env url dp.availableSpace st).1 = some e := he
  simp only [convert, h1]
  rfl

theorem convert_of_stream_error (env : Env W) (dp : DataProcessor) (url : Option URL)
    (st : Sys W) (e : GoError)
    (hv : (env.qemuValidate url dp.availableSpace st.world).1 = none)
    (he : (env.qemuConvertToRawStream url dp.dataFile
      (env.qemuValidate url dp.availableSpace st.world).2).1 = some e) :
    convert env dp url st =
      ((Error, some (GoError.wrapped e "Conversion to Raw failed")),
        Sys.mk (env.qemuConvertToRawStream url dp.dataFile
            (env.qemuValidate url dp.availableSpace st.world).2).2
          (st.trace ++ [Event.qemuValidate url dp.availableSpace,
            Event.qemuConvertToRawStream url dp.dataFile])) := by
  have h1 : (callQemuValidate env url dp.availableSpace st).1 = none := hv
  have h2 : (callQemuConvertToRawStream env url dp.dataFile
      (callQemuValidate env url dp.availableSpace st).2).1 = some e := he
  simp only [convert, h1, h2]
  simp [callQemuValidate, callQemuConvertToRawStream, Sys.call]

theorem convert_of_success (env : Env W) (dp : DataProcessor) (url : Option URL)
    (st : Sys W)
    (hv : (env.qemuValidate url dp.availableSpace st.world).1 = none)
    (he : (env.qemuConvertToRawStream url dp.dataFile
      (env.qemuValidate url dp.availableSpace st.world).2).1 = none) :
    convert env dp url st =
      ((Resize, none),
        Sys.mk (env.qemuConvertToRawStream url dp.dataFile
            (env.qemuValidate url dp.availableSpace st.world).2).2
          (st.trace ++ [Event.qemuValidate url dp.availableSpace,
            Event.qemuConvertToRawStream url dp.dataFile])) := by
  have h1 : (callQemuValidate env url dp.availableSpace st).1 = none := hv
  have h2 : (callQemuConvertToRawStream env url dp.dataFile
      (callQemuValidate env url dp.availableSpace st).2).1 = none := he
  simp only [convert, h1, h2]
  simp [callQemuValidate, callQemuConvertToRawStream, Sys.call]

theorem convert_trace (env : Env W) (dp : DataProcessor) (url : Option URL) (st : Sys W) :
    ∃ rest, (convert env dp url st).2.trace = st.trace ++ rest ∧
      ∀ ev ∈ rest, ev.isQemu = true ∧ ∀ u, ev ≠ Event.qemuInfo u := by
  rcases h1 : (env.qemuValidate url dp.availableSpace st.world).1 with _ | e
  · rcases h2 : (env.qemuConvertToRawStream url dp.dataFile
        (env.qemuValidate url dp.availableSpace st.world).2).1 with _ | e2
    · refine ⟨[Event.qemuValidate url dp.availableSpace,
        Event.qemuConvertToRawStream url dp.dataFile], ?_, ?_⟩
      · rw [convert_of_success env dp url st h1 h2]
      · intro ev hev
        simp only [List.mem_cons, List.mem_singleton, List.mem_nil_iff, or_false] at hev
        rcases hev with rfl | rfl <;> exact ⟨rfl, by simp⟩
    · refine ⟨[Event.qemuValidate url dp.availableSpace,
        Event.qemuConvertToRawStream url dp.dataFile], ?_, ?_⟩
      · rw [convert_of_stream_error env dp url st e2 h1 h2]
      · intro ev hev
        simp only [List.mem_cons, List.mem_singleton, List.mem_nil_iff, or_false] at hev
        rcases hev with rfl | rfl <;> exact ⟨rfl, by simp⟩
  · refine ⟨[Event.qemuValidate url dp.availableSpace], ?_, ?_⟩
    · rw [convert_of_validate_error env dp url st e h1]
    · intro ev hev
      simp only [List.mem_singleton] at hev
      subst hev
      exact ⟨rfl, by simp⟩

theorem convert_failure_is_Error (env : Env W) (dp : DataProcessor)
    (url : Option URL) (st : Sys W) :
    (convert env dp url st).1 ≠ (Resize, none) →
      (convert env dp url st).1.1 = Error ∧ (convert env dp url st).1.2 ≠ none := by
  intro hne
  rcases h1 : (env.qemuValidate url dp.availableSpace st.world).1 with _ | e
  · rcases h2 : (env.qemuConvertToRawStream url dp.dataFile
        (env.qemuValidate url dp.availableSpace st.world).2).1 with _ | e2
    · rw [convert_of_success env dp url st h1 h2] at hne
      exact absurd rfl hne
    · rw [convert_of_stream_error env dp url st e2 h1 h2]
      simp
  · rw [convert_of_validate_error env dp url st e h1]
    simp

/-- C7: `convert(u)` first calls `Validate(u, availableSpace)`; if that fails with
`e` it returns (Error, the wrapped `e`) and Validate is the only call; otherwise
it calls `ConvertToRawStream(u, dataFile)` and returns (Error, the wrapped
error) if that fails and (Resize, nil) if it succeeds, these two being the only
calls; so (Resize, nil) is returned exactly when both calls succeed, and every
other return is (Error, non-nil).  The result is the same whatever
`QemuOps.Info` is, and Info is never called. -/
theorem convert_validates_then_converts (env : Env W) (dp : DataProcessor) (url : Option URL)
    (st : Sys W) :
    (∀ e, (env.qemuValidate url dp.availableSpace st.world).1 = some e →
      convert env dp url st =
        ((Error, some (GoError.wrapped e "Image validation failed")),
          Sys.mk (env.qemuValidate url dp.availableSpace st.world).2
            (st.trace ++ [Event.qemuValidate url dp.availableSpace]))) ∧
    ((env.qemuValidate url dp.availableSpace st.world).1 = none →
      (∀ e, (env.qemuConvertToRawStream url dp.dataFile
          (env.qemuValidate url dp.availableSpace st.world).2).1 = some e →
        convert env dp url st =
          ((Error, some (GoError.wrapped e "Conversion to Raw failed")),
            Sys.mk (env.qemuConvertToRawStream url dp.dataFile
                (env.qemuValidate url dp.availableSpace st.world).2).2
              (st.trace ++ [Event.qemuValidate url dp.availableSpace,
                Event.qemuConvertToRawStream url dp.dataFile]))) ∧
      ((env.qemuConvertToRawStream url dp.dataFile
          (env.qemuValidate url dp.availableSpace st.world).2).1 = none →
        convert env dp url st =
          ((Resize, none),
            Sys.mk (env.qemuConvertToRawStream url dp.dataFile
                (env.qemuValidate url dp.availableSpace st.world).2).2
              (st.trace ++ [Event.qemuValidate url dp.availableSpace,
                Event.qemuConvertToRawStream url dp.dataFile])))) ∧
    ((convert env dp url st).1 = (Resize, none) ↔
      (env.qemuValidate url dp.availableSpace st.world).1 = none ∧
      (env.qemuConvertToRawStream url dp.dataFile
        (env.qemuValidate url dp.availableSpace st.world).2).1 = none) ∧
    ((convert env dp url st).1 ≠ (Resize, none) →
      (convert env dp url st).1.1 = Error ∧ (convert env dp url st).1.2 ≠ none) ∧
    (∀ info : Option URL → W → (Option ImgInfo × Option GoError) × W,
      convert { env with qemuInfo := info } dp url st = convert env dp url st) ∧
    (∀ u, Event.qemuInfo u ∉ (convert env dp url st).2.trace.drop st.trace.length) := by
  have hER : ¬ (Error = Resize) := by decide
  refine ⟨fun e he => convert_of_validate_error env dp url st e he,
    fun hv => ⟨fun e he => convert_of_stream_error env dp url st e hv he,
      fun he => convert_of_success env dp url st hv he⟩, ?_, ?_, fun _ => rfl, ?_⟩
  · rcases h1 : (env.qemuValidate url dp.availableSpace st.world).1 with _ | e
    · rcases h2 : (env.qemuConvertToRawStream url dp.dataFile
          (env.qemuValidate url dp.availableSpace st.world).2).1 with _ | e2
      · rw [convert_of_success env dp url st h1 h2]
        simp
      · rw [convert_of_stream_error env dp url st e2 h1 h2]
        simp [hER]
    · rw [convert_of_validate_error env dp url st e h1]
      simp [hER]
  · exact convert_failure_is_Error env dp url st
  · intro u hmem
    obtain ⟨rest, hrest, hq⟩ := convert_trace env dp url st
    rw [hrest, List.drop_left] at hmem
    exact (hq _ hmem).2 u rfl

/-- The three unit tests of Convert: all qemu calls succeeding gives (Resize, nil);
a failing Validate gives Error after the Validate call alone; a failing
ConvertToRawStream gives Error after both calls.  Info, which fails in these
tests, is not called. -/
theorem convert_tests :
    convert (testEnv (fakeQEMUOperations.mk none none
          (some fakeZeroImageInfo, some (GoError.created "Scratch space required, and none found "))
          none none none) (fun _ => -1) (fun _ => -1)) testProcessor
        (some (URL.mk "http://fakeurl-notreal.fake")) (Sys.mk (newMock "" "" "" none) []) =
      ((Resize, none), Sys.mk (newMock "" "" "" none)
        [Event.qemuValidate (some (URL.mk "http://fakeurl-notreal.fake")) (-1),
          Event.qemuConvertToRawStream (some (URL.mk "http://fakeurl-notreal.fake")) "dest"]) ∧
    convert (testEnv (fakeQEMUOperations.mk none none
          (some fakeZeroImageInfo, some (GoError.created "Scratch space required, and none found "))
          (some (GoError.created "Validation failure")) none none) (fun _ => -1) (fun _ => -1))
        testProcessor (some (URL.mk "http://fakeurl-notreal.fake"))
        (Sys.mk (newMock "" "" "" none) []) =
      ((Error, some (GoError.wrapped (GoError.created "Validation failure")
          "Image validation failed")),
        Sys.mk (newMock "" "" "" none)
          [Event.qemuValidate (some (URL.mk "http://fakeurl-notreal.fake")) (-1)]) ∧
    convert (testEnv (fakeQEMUOperations.mk (some (GoError.created "Conversion failure")) none
          (some fakeZeroImageInfo, some (GoError.created "Scratch space required, and none found "))
          none none none) (fun _ => -1) (fun _ => -1)) testProcessor
        (some (URL.mk "http://fakeurl-notreal.fake")) (Sys.mk (newMock "" "" "" none) []) =
      ((Error, some (GoError.wrapped (GoError.created "Conversion failure")
          "Conversion to Raw failed")),
        Sys.mk (newMock "" "" "" none)
          [Event.qemuValidate (some (URL.mk "http://fakeurl-notreal.fake")) (-1),
            Event.qemuConvertToRawStream (some (URL.mk "http://fakeurl-notreal.fake")) "dest"]) :=
  ⟨rfl, rfl, rfl⟩

theorem isSource_of_isQemu (ev : Event) (h : ev.isQemu = true) : ev.isSource = false := by
  cases ev <;> simp_all [Event.isQemu, Event.isSource]

theorem convert_phase_of_success (env : Env W) (dp : DataProcessor) (url : Option URL)
    (st : Sys W) (h : (convert env dp url st).1.2 = none) :
    (convert env dp url st).1.1 = Resize := by
  rcases h1 : (env.qemuValidate url dp.availableSpace st.world).1 with _ | e
  · rcases h2 : (env.qemuConvertToRawStream url dp.dataFile
        (env.qemuValidate url dp.availableSpace st.world).2).1 with _ | e2
    · rw [convert_of_success env dp url st h1 h2]
    · rw [convert_of_stream_error env dp url st e2 h1 h2] at h
      simp at h
  · rw [convert_of_validate_error env dp url st e h1] at h
    simp at h

theorem callQemuResize_trace (env : Env W) (dest : String) (size : Quantity) (st : Sys W) :
    (callQemuResize env dest size st).2.trace = st.trace ++ [Event.qemuResize dest size] :=
  rfl

theorem ResizeImage_trace (env : Env W) (dataFile imageSize : String) (t : Int) (st : Sys W) :
    ∃ rest, (ResizeImage env dataFile imageSize t st).2.trace = st.trace ++ rest ∧
      ∀ ev ∈ rest, ev.isQemu = true := by
  have hinfo : (callQemuInfo env (env.urlParse dataFile) st).2.trace =
      st.trace ++ [Event.qemuInfo (env.urlParse dataFile)] := rfl
  have hone : ∀ ev ∈ [Event.qemuInfo (env.urlParse dataFile)], ev.isQemu = true := by
    intro ev hev
    simp only [List.mem_singleton] at hev
    subst hev
    rfl
  unfold ResizeImage
  simp only []
  split
  · exact ⟨_, hinfo, hone⟩
  · split
    · split
      · exact ⟨_, hinfo, hone⟩
      · split
        · exact ⟨_, hinfo, hone⟩
        · split
          · exact ⟨_, hinfo, hone⟩
          · refine ⟨_, by rw [callQemuResize_trace, hinfo, List.append_assoc], ?_⟩
            intro ev hev
            simp only [List.mem_append, List.mem_singleton] at hev
            rcases hev with rfl | rfl <;> rfl
    · exact ⟨_, hinfo, hone⟩

theorem resize_trace (env : Env W) (dp : DataProcessor) (st : Sys W) :
    ∃ rest, (resize env dp st).2.trace = st.trace ++ rest ∧ ∀ ev ∈ rest, ev.isQemu = true := by
  obtain ⟨rest, h1, h2⟩ :=
    ResizeImage_trace env dp.dataFile dp.requestImageSize dp.availableSpace st
  by_cases hc : dp.requestImageSize ≠ "" ∧ env.GetAvailableSpaceBlock dp.dataFile st.world < 0
  · refine ⟨rest, ?_, h2⟩
    rw [← h1]
    rcases hr : (ResizeImage env dp.dataFile dp.requestImageSize dp.availableSpace st).1
      with p | (_ | e) <;> simp only [resize, if_pos hc, hr]
  · exact ⟨[], by simp only [resize, if_neg hc, List.append_nil], by simp⟩

theorem resize_phase (env : Env W) (dp : DataProcessor) (st : Sys W) (ph : ProcessingPhase)
    (err : Option GoError) (h : (resize env dp st).1 = Except.ok (ph, err)) :
    (err = none → ph = Complete) ∧ (err ≠ none → ph = Error) := by
  by_cases hc : dp.requestImageSize ≠ "" ∧ env.GetAvailableSpaceBlock dp.dataFile st.world < 0
  · rcases hr : (ResizeImage env dp.dataFile dp.requestImageSize dp.availableSpace st).1
      with p | (_ | e) <;> simp only [resize, if_pos hc, hr] at h
    · simp at h
    · simp only [Except.ok.injEq, Prod.mk.injEq] at h
      obtain ⟨h1, h2⟩ := h
      subst h1 h2
      simp
    · simp only [Except.ok.injEq, Prod.mk.injEq] at h
      obtain ⟨h1, h2⟩ := h
      subst h1 h2
      simp
  · simp only [resize, if_neg hc, Except.ok.injEq, Prod.mk.injEq] at h
    obtain ⟨h1, h2⟩ := h
    subst h1 h2
    simp

theorem ProcessData_after_GetURL (env : Env W) (fuel : Nat) (dp dp1 : DataProcessor)
    (st stX : Sys W) (out : Except Panic (Option GoError)) (restX : List Event)
    (hloop : ProcessDataLoop env fuel dp none st = some (out, dp1, stX))
    (htr : stX.trace = st.trace ++ Event.sourceGetURL :: restX)
    (hq : ∀ ev ∈ restX, ev.isSource = false) :
    ∃ st1 rest, ProcessData env fuel dp st = some (out, dp1, st1) ∧
      st1.trace = st.trace ++ Event.sourceGetURL :: rest ∧
      ∀ ev ∈ rest, ev.isSource = false := by
  refine ⟨deferredCleanDir env dp st stX,
    restX ++ (if env.GetAvailableSpace dp.scratchDataDir st.world > 0
      then [Event.cleanDir dp.scratchDataDir] else []),
    ProcessData_of_loop env fuel dp dp1 st stX out hloop, ?_, ?_⟩
  · rw [deferredCleanDir_trace, htr]
    simp
  · intro ev hev
    rcases List.mem_append.mp hev with h | h
    · exact hq ev h
    · split at h
      · simp only [List.mem_singleton] at h
        subst h
        rfl
      · simp at h

/-- C8: for every source, once the current phase is Convert at any point of a
run, ProcessData needs no further answer from the source: given fuel for three
evaluations of the loop condition or more it terminates, having called
`source.GetURL` exactly once, as its first call, and no other source operation
afterwards (no Info, Transfer, Process, GetURL or Close); if convert succeeds
the phase it assigns is Resize, and if resize then succeeds the phase it
assigns is Complete and ProcessData returns nil with the phase Complete. -/
theorem ProcessData_from_Convert (env : Env W) (dp : DataProcessor) (st : Sys W) (n : Nat)
    (hphase : dp.currentPhase = Convert) :
    ∃ out dp1 st1 rest,
      ProcessData env (n + 3) dp st = some (out, dp1, st1) ∧
      st1.trace = st.trace ++ Event.sourceGetURL :: rest ∧
      (∀ ev ∈ rest, ev.isSource = false) ∧
      ((convert env dp (callSourceGetURL env st).1 (callSourceGetURL env st).2).1.2 = none →
        (convert env dp (callSourceGetURL env st).1 (callSourceGetURL env st).2).1.1 = Resize ∧
        ∀ ph, (resize env { dp with currentPhase := Resize }
            (convert env dp (callSourceGetURL env st).1 (callSourceGetURL env st).2).2).1 =
              Except.ok (ph, none) →
          ph = Complete ∧ out = Except.ok none ∧ dp1.currentPhase = Complete) := by
  have hu : (callSourceGetURL env st).2.trace = st.trace ++ [Event.sourceGetURL] := rfl
  obtain ⟨restc, hc1, hc2⟩ :=
    convert_trace env dp (callSourceGetURL env st).1 (callSourceGetURL env st).2
  have hstep := ProcessDataLoop_Convert env (n + 2) dp none st hphase
  rcases hce : (convert env dp (callSourceGetURL env st).1 (callSourceGetURL env st).2).1.2
    with _ | e
  · -- convert succeeded: the phase is Resize
    have hR := convert_phase_of_success env dp _ _ hce
    simp only [hce, hR] at hstep
    obtain ⟨restr, hr1, hr2⟩ := resize_trace env { dp with currentPhase := Resize }
      (convert env dp (callSourceGetURL env st).1 (callSourceGetURL env st).2).2
    have hstep2 := ProcessDataLoop_Resize env (n + 1) { dp with currentPhase := Resize } none
      (convert env dp (callSourceGetURL env st).1 (callSourceGetURL env st).2).2 rfl
    have htr : (resize env { dp with currentPhase := Resize }
        (convert env dp (callSourceGetURL env st).1 (callSourceGetURL env st).2).2).2.trace =
        st.trace ++ Event.sourceGetURL :: (restc ++ restr) := by
      rw [hr1, hc1, hu]
      simp
    have hq : ∀ ev ∈ restc ++ restr, ev.isSource = false := by
      intro ev hev
      rcases List.mem_append.mp hev with h | h
      · exact isSource_of_isQemu ev (hc2 ev h).1
      · exact isSource_of_isQemu ev (hr2 ev h)
    rcases hre : (resize env { dp with currentPhase := Resize }
        (convert env dp (callSourceGetURL env st).1 (callSourceGetURL env st).2).2).1
      with p | ⟨ph, _ | e⟩
    · simp only [hre] at hstep2
      obtain ⟨st1, rest, h1, h2, h3⟩ := ProcessData_after_GetURL env (n + 3) dp _ st _ _ _
        (hstep.trans hstep2) htr hq
      exact ⟨_, _, st1, rest, h1, h2, h3, fun _ => ⟨hR, fun ph hph => by simp at hph⟩⟩
    · have hC := (resize_phase env _ _ ph none hre).1 rfl
      subst hC
      simp only [hre] at hstep2
      rw [ProcessDataLoop_Complete env n _ none _ rfl] at hstep2
      obtain ⟨st1, rest, h1, h2, h3⟩ := ProcessData_after_GetURL env (n + 3) dp _ st _ _ _
        (hstep.trans hstep2) htr hq
      refine ⟨_, _, st1, rest, h1, h2, h3, fun _ => ⟨hR, fun ph hph => ?_⟩⟩
      simp only [Except.ok.injEq, Prod.mk.injEq, and_true] at hph
      exact ⟨hph.symm, rfl, rfl⟩
    · simp only [hre] at hstep2
      obtain ⟨st1, rest, h1, h2, h3⟩ := ProcessData_after_GetURL env (n + 3) dp _ st _ _ _
        (hstep.trans hstep2) htr hq
      exact ⟨_, _, st1, rest, h1, h2, h3, fun _ => ⟨hR, fun ph hph => by simp at hph⟩⟩
  · -- convert failed: its error is returned
    simp only [hce] at hstep
    have htr : (convert env dp (callSourceGetURL env st).1 (callSourceGetURL env st).2).2.trace =
        st.trace ++ Event.sourceGetURL :: restc := by
      rw [hc1, hu]
      simp
    have hq : ∀ ev ∈ restc, ev.isSource = false :=
      fun ev hev => isSource_of_isQemu ev (hc2 ev hev).1
    obtain ⟨st1, rest, h1, h2, h3⟩ := ProcessData_after_GetURL env (n + 3) dp _ st _ _ _
      hstep htr hq
    exact ⟨_, _, st1, rest, h1, h2, h3, fun h => by simp at h⟩

/-- The unit test "should call Convert after Process phase", at the point where
Process has answered Convert: the run ends after GetURL and qemu calls only. -/
theorem ProcessData_from_Convert_witness :
    ∃ out dp1 st1 rest,
      ProcessData (testEnv fakeOpsOk convertTestSpace (fun _ => -1)) 3
          { convertTestProcessor with currentPhase := Convert }
          (Sys.mk (MockDataProvider.mk TransferTarget Process Convert
              (some (URL.mk "http://fakeurl-notreal.fake")) "dataDir" [Info, Transfer, Process])
            [Event.sourceInfo, Event.sourceTransfer "dataDir", Event.sourceProcess]) =
        some (out, dp1, st1) ∧
      st1.trace = [Event.sourceInfo, Event.sourceTransfer "dataDir", Event.sourceProcess] ++
        Event.sourceGetURL :: rest ∧
      (∀ ev ∈ rest, ev.isSource = false) ∧
      ((convert (testEnv fakeOpsOk convertTestSpace (fun _ => -1))
          { convertTestProcessor with currentPhase := Convert }
          (some (URL.mk "http://fakeurl-notreal.fake"))
          (Sys.mk (MockDataProvider.mk TransferTarget Process Convert
              (some (URL.mk "http://fakeurl-notreal.fake")) "dataDir" [Info, Transfer, Process])
            [Event.sourceInfo, Event.sourceTransfer "dataDir", Event.sourceProcess,
              Event.sourceGetURL])).1.2 = none →
        out = Except.ok none ∧ dp1.currentPhase = Complete) := by
  obtain ⟨out, dp1, st1, rest, h1, h2, h3, h4⟩ :=
    ProcessData_from_Convert (testEnv fakeOpsOk convertTestSpace (fun _ => -1))
      { convertTestProcessor with currentPhase := Convert }
      (Sys.mk (MockDataProvider.mk TransferTarget Process Convert
          (some (URL.mk "http://fakeurl-notreal.fake")) "dataDir" [Info, Transfer, Process])
        [Event.sourceInfo, Event.sourceTransfer "dataDir", Event.sourceProcess]) 0 rfl
  exact ⟨out, dp1, st1, rest, h1, h2, h3, fun hc => ((h4 hc).2 Complete rfl).2⟩

/-- The whole run of the unit test "should call Convert after Process phase":
the source is called for Info, Transfer, Process and GetURL, the rest is qemu
calls and the deferred CleanDir, and the run ends in Complete with nil. -/
theorem ProcessData_convert_test :
    ProcessData (testEnv fakeOpsOk convertTestSpace (fun _ => -1)) 6 convertTestProcessor
        (Sys.mk (newMock TransferTarget Process Convert
          (some (URL.mk "http://fakeurl-notreal.fake"))) []) =
      some (Except.ok none, { convertTestProcessor with currentPhase := Complete },
        Sys.mk (MockDataProvider.mk TransferTarget Process Convert
            (some (URL.mk "http://fakeurl-notreal.fake")) "dataDir" [Info, Transfer, Process])
          [Event.sourceInfo, Event.sourceTransfer "dataDir", Event.sourceProcess,
            Event.sourceGetURL,
            Event.qemuValidate (some (URL.mk "http://fakeurl-notreal.fake")) (-1),
            Event.qemuConvertToRawStream (some (URL.mk "http://fakeurl-notreal.fake")) "dest",
            Event.qemuInfo (some (URL.mk "dest")), Event.qemuResize "dest" (-1),
            Event.cleanDir "/tmp/scratch"]) := by
  rfl

/-! ## Terminal phases -/

theorem ProcessDataLoop_nil_Complete (env : Env W) (fuel : Nat) :
    ∀ (dp : DataProcessor) (st : Sys W) (out : Except Panic (Option GoError))
      (dp1 : DataProcessor) (st1 : Sys W),
      ProcessDataLoop env fuel dp none st = some (out, dp1, st1) →
      out = Except.ok none → dp1.currentPhase = Complete := by
  induction fuel with
  | zero =>
    intro dp st out dp1 st1 h
    simp [ProcessDataLoop] at h
  | succ k ih =>
    intro dp st out dp1 st1 h hout
    by_cases hC : dp.currentPhase = Complete
    · rw [ProcessDataLoop_Complete env k dp none st hC] at h
      simp only [Option.some.injEq, Prod.mk.injEq] at h
      rw [← h.2.1]
      exact hC
    · simp only [ProcessDataLoop, hC, if_false] at h
      split at h
      · simp only [Option.some.injEq, Prod.mk.injEq] at h
        rw [← h.1] at hout
        simp at hout
      · simp only [Option.some.injEq, Prod.mk.injEq] at h
        rw [← h.1] at hout
        simp at hout
      · split at h
        · simp only [Option.some.injEq, Prod.mk.injEq] at h
          rw [← h.1] at hout
          simp at hout
        · exact ih _ _ out dp1 st1 h hout

theorem phaseSwitch_error_phase (env : Env W) (hsrc : CompleteWithoutError env)
    (dp : DataProcessor) (st st1 : Sys W) (ph : ProcessingPhase) (e : GoError)
    (h : phaseSwitch env dp st = Switched.assigned ph (some e) st1) : ph ≠ Complete := by
  have hEC : ¬ (Error = Complete) := by decide
  obtain ⟨hI, hT, hP⟩ := hsrc
  unfold phaseSwitch at h
  simp only [] at h
  split at h
  · simp only [Switched.assigned.injEq] at h
    intro hc
    have := hI st.world (h.1.trans hc)
    have h2 : (callSourceInfo env st).1.2 = none := this
    rw [h2] at h
    simp at h
  · split at h
    · split at h
      · rename_i hinv
        simp only [Switched.assigned.injEq] at h
        intro hc
        have := hT dp.scratchDataDir st.world (h.1.trans hc)
        have h2 : (callSourceTransfer env dp.scratchDataDir st).1.2 = none := this
        rw [h2] at hinv
        simp at hinv
      · simp only [Switched.assigned.injEq] at h
        intro hc
        have := hT dp.scratchDataDir st.world (h.1.trans hc)
        have h2 : (callSourceTransfer env dp.scratchDataDir st).1.2 = none := this
        rw [h2] at h
        simp at h
    · split at h
      · simp only [Switched.assigned.injEq] at h
        intro hc
        have := hT dp.dataDir st.world (h.1.trans hc)
        have h2 : (callSourceTransfer env dp.dataDir st).1.2 = none := this
        rw [h2] at h
        simp at h
      · split at h
        · simp only [Switched.assigned.injEq] at h
          intro hc
          have := hP st.world (h.1.trans hc)
          have h2 : (callSourceProcess env st).1.2 = none := this
          rw [h2] at h
          simp at h
        · split at h
          · simp only [Switched.assigned.injEq] at h
            have hne : (convert env dp (callSourceGetURL env st).1
                (callSourceGetURL env st).2).1 ≠ (Resize, none) := by
              intro hc
              rw [hc] at h
              simp at h
            have := ((convert_failure_is_Error env dp _ _) hne).1
            rw [← h.1, this]
            exact hEC
          · split at h
            · split at h
              · simp at h
              · rename_i heq
                simp only [Switched.assigned.injEq] at h
                obtain ⟨h1, h2, _⟩ := h
                subst h1 h2
                have := (resize_phase env dp st _ _ heq).2 (by simp)
                rw [this]
                exact hEC
            · simp at h

theorem ProcessDataLoop_Complete_nil (env : Env W) (hsrc : CompleteWithoutError env)
    (fuel : Nat) :
    ∀ (dp : DataProcessor) (st : Sys W) (out : Except Panic (Option GoError))
      (dp1 : DataProcessor) (st1 : Sys W),
      ProcessDataLoop env fuel dp none st = some (out, dp1, st1) →
      dp1.currentPhase = Complete → out = Except.ok none := by
  induction fuel with
  | zero =>
    intro dp st out dp1 st1 h
    simp [ProcessDataLoop] at h
  | succ k ih =>
    intro dp st out dp1 st1 h hph
    by_cases hC : dp.currentPhase = Complete
    · rw [ProcessDataLoop_Complete env k dp none st hC] at h
      simp only [Option.some.injEq, Prod.mk.injEq] at h
      exact h.1.symm
    · simp only [ProcessDataLoop, hC, if_false] at h
      split at h
      · simp only [Option.some.injEq, Prod.mk.injEq] at h
        rw [← h.2.1] at hph
        exact absurd hph hC
      · simp only [Option.some.injEq, Prod.mk.injEq] at h
        rw [← h.2.1] at hph
        exact absurd hph hC
      · rename_i ph err1 stn hsw
        split at h
        · rename_i e
          simp only [Option.some.injEq, Prod.mk.injEq] at h
          rw [← h.2.1] at hph
          exact absurd hph (phaseSwitch_error_phase env hsrc dp st stn ph e hsw)
        · exact ih _ _ out dp1 st1 h hph

theorem testEnv_CompleteWithoutError (o : fakeQEMUOperations) (space spaceBlock : String → Int) :
    CompleteWithoutError (testEnv o space spaceBlock) := by
  have hEC : ¬ (Error = Complete) := by decide
  refine ⟨fun m h => ?_, fun path m h => ?_, fun m h => ?_⟩
  · simp only [testEnv, MockDataProvider.Info] at h ⊢
    split at h
    · exact absurd h hEC
    · rename_i hne
      simp [hne]
  · simp only [testEnv, MockDataProvider.Transfer] at h ⊢
    split at h
    · exact absurd h hEC
    · rename_i hne
      simp [hne]
  · simp only [testEnv, MockDataProvider.Process] at h ⊢
    split at h
    · exact absurd h hEC
    · rename_i hne
      simp [hne]

/-- C9, as amended: for every terminating run of ProcessData, a nil return implies
that the run ends with the current phase Complete, and every return with a
current phase other than Complete carries a non-nil error; conversely a run
that ends with the phase Complete returns nil provided the source never answers
Complete together with a non-nil error.  A processor whose phase is already
Complete returns nil, given any fuel at all, without any source or qemu call:
the only event it may add is the deferred CleanDir. -/
theorem ProcessData_nil_Complete (env : Env W) (dp : DataProcessor) (st : Sys W) :
    (∀ fuel out dp1 st1, ProcessData env fuel dp st = some (out, dp1, st1) →
      (out = Except.ok none → dp1.currentPhase = Complete) ∧
      (∀ e, out = Except.ok e → dp1.currentPhase ≠ Complete → e ≠ none) ∧
      (CompleteWithoutError env → dp1.currentPhase = Complete → out = Except.ok none)) ∧
    (dp.currentPhase = Complete →
      ∀ n, ProcessData env (n + 1) dp st =
          some (Except.ok none, dp, deferredCleanDir env dp st st) ∧
        (deferredCleanDir env dp st st).trace = st.trace ++
          (if env.GetAvailableSpace dp.scratchDataDir st.world > 0
            then [Event.cleanDir dp.scratchDataDir] else [])) := by
  constructor
  · intro fuel out dp1 st1 h
    unfold ProcessData at h
    rcases hl : ProcessDataLoop env fuel dp none st with _ | ⟨o, d, s⟩
    · simp [hl] at h
    · simp only [hl, Option.some.injEq, Prod.mk.injEq] at h
      obtain ⟨h1, h2, _⟩ := h
      subst h1 h2
      have hnil := ProcessDataLoop_nil_Complete env fuel dp st o d s hl
      refine ⟨hnil, ?_, fun hsrc hph => ProcessDataLoop_Complete_nil env hsrc fuel dp st o d s hl hph⟩
      intro e he hne hen
      rw [hen] at he
      exact hne (hnil he)
  · intro hC n
    exact ⟨ProcessData_of_loop env (n + 1) dp dp st st _
      (ProcessDataLoop_Complete env n dp none st hC), deferredCleanDir_trace env dp st st⟩

/-- C9 as stated fails: a source whose Info answers Complete together with an
error makes ProcessData return that error while the run ends with the current
phase equal to Complete, so "nil if and only if the phase is Complete" is false
for this terminating run. -/
theorem ProcessData_Complete_with_error :
    ¬ (∀ out dp1 st1,
      ProcessData (scriptedEnv fakeOpsOk (fun _ => -1) (fun _ => -1)) 1 testProcessor
          (Sys.mk [(Complete, some (GoError.created "failed late"))] []) =
        some (out, dp1, st1) →
      (out = Except.ok none ↔ dp1.currentPhase = Complete)) := by
  intro h
  have h1 := h (Except.ok (some (GoError.created "failed late")))
    { testProcessor with currentPhase := Complete } (Sys.mk [] [Event.sourceInfo]) rfl
  have h2 := h1.mpr rfl
  simp at h2

/-- C10: Error is a sink.  At any point of a run, if the source call of the
current phase answers the phase Error, with or without an error, then
ProcessData, given fuel for two evaluations of the loop condition or more,
returns a non-nil error: the error of the call (ErrInvalidPath of a scratch
transfer being returned as ErrRequiresScratchSpace), or, when the call gave a
nil error, the unknown-phase error for Error.  The run ends with the phase
Error, and the call that answered Error is the last source or qemu call: only
the deferred CleanDir may follow it. -/
theorem ProcessData_Error_sink (env : Env W) (dp : DataProcessor) (st : Sys W)
    (r : (ProcessingPhase × Option GoError) × Sys W) (n : Nat)
    (hcall : SourceCall env dp st r) (hp : r.1.1 = Error) :
    (∃ e, ProcessData env (n + 2) dp st =
        some (Except.ok (some e), { dp with currentPhase := Error },
          deferredCleanDir env dp st r.2) ∧
      (r.1.2 = none → e = unknownPhaseError Error)) ∧
    (∃ ev, ev.isSource = true ∧ r.2.trace = st.trace ++ [ev]) ∧
    (deferredCleanDir env dp st r.2).trace = r.2.trace ++
      (if env.GetAvailableSpace dp.scratchDataDir st.world > 0
        then [Event.cleanDir dp.scratchDataDir] else []) := by
  refine ⟨?_, SourceCall_trace env dp st r hcall, deferredCleanDir_trace env dp st r.2⟩
  have hstep := SourceCall_loop env (n + 1) dp none st r hcall
  rw [hp] at hstep
  rcases ht : (if dp.currentPhase = Transfer ∧ r.1.2 = some ErrInvalidPath
      then some ErrRequiresScratchSpace else r.1.2) with _ | e
  · have hnone : r.1.2 = none := by
      split at ht
      · simp at ht
      · exact ht
    simp only [ht] at hstep
    have hun : ({ dp with currentPhase := Error } : DataProcessor).currentPhase ∉
        [Info, Transfer, TransferTarget, Process, Convert, Resize, Complete] := by
      show Error ∉ [Info, Transfer, TransferTarget, Process, Convert, Resize, Complete]
      decide
    rw [ProcessDataLoop_undispatched env n _ none r.2 hun] at hstep
    exact ⟨unknownPhaseError Error, ProcessData_of_loop env (n + 2) dp _ st r.2 _ hstep,
      fun _ => rfl⟩
  · simp only [ht] at hstep
    refine ⟨e, ProcessData_of_loop env (n + 2) dp _ st r.2 _ hstep, fun hnone => ?_⟩
    rw [hnone] at ht
    split at ht
    · rename_i hc
      simp at hc
    · simp at ht

/-- A scripted source whose Info answers Error with a nil error: the run stops
after that call with the unknown-phase error for Error. -/
theorem ProcessData_Error_sink_witness :
    ∃ e, ProcessData (scriptedEnv fakeOpsOk (fun _ => -1) (fun _ => -1)) 2 testProcessor
        (Sys.mk [(Error, none)] []) =
      some (Except.ok (some e), { testProcessor with currentPhase := Error },
        Sys.mk [] [Event.sourceInfo]) ∧
      ((none : Option GoError) = none → e = GoError.created "Unknown processing phase Error") :=
  (ProcessData_Error_sink (scriptedEnv fakeOpsOk (fun _ => -1) (fun _ => -1)) testProcessor
    (Sys.mk [(Error, none)] [])
    (callSourceInfo (scriptedEnv fakeOpsOk (fun _ => -1) (fun _ => -1))
      (Sys.mk [(Error, none)] [])) 0 (Or.inl ⟨rfl, rfl⟩) rfl).1

/-! ## resize and ResizeImage without a resize -/

/-- C11: for every processor whose requested image size is empty, `resize` returns
(Complete, nil) and leaves the world and the trace as they were: neither
`QemuOps.Info` nor `QemuOps.Resize` is called, whatever the target is and
whatever the qemu operations would answer. -/
theorem resize_blank_size (env : Env W) (dp : DataProcessor) (st : Sys W)
    (h : dp.requestImageSize = "") :
    resize env dp st = (Except.ok (Complete, none), st) := by
  have hc : ¬ (dp.requestImageSize ≠ "" ∧ env.GetAvailableSpaceBlock dp.dataFile st.world < 0) :=
    fun hc => hc.1 h
  simp only [resize, if_neg hc]

/-- The unit test "Should not resize and return complete, when requestedSize is
blank", with qemu operations that would all fail: nothing is called. -/
theorem resize_blank_size_witness :
    resize (testEnv fakeOpsAllErrors (fun _ => -1) (fun _ => -1))
        { testProcessor with requestImageSize := "" } (Sys.mk (newMock "" "" "" none) []) =
      (Except.ok (Complete, none), Sys.mk (newMock "" "" "" none) []) :=
  resize_blank_size (testEnv fakeOpsAllErrors (fun _ => -1) (fun _ => -1))
    { testProcessor with requestImageSize := "" } (Sys.mk (newMock "" "" "" none) []) rfl

/-- The case in which `resize` is a no-op whatever the requested size: when
`GetAvailableSpaceBlock(dataFile)` is not negative, that is when the data file
is a block device, it calls no qemu operation and returns (Complete, nil). -/
theorem resize_block_device (env : Env W) (dp : DataProcessor) (st : Sys W)
    (hblock : 0 ≤ env.GetAvailableSpaceBlock dp.dataFile st.world) :
    resize env dp st = (Except.ok (Complete, none), st) := by
  have hc : ¬ (dp.requestImageSize ≠ "" ∧ env.GetAvailableSpaceBlock dp.dataFile st.world < 0) :=
    fun hc => absurd hc.2 (not_lt.mpr hblock)
  simp only [resize, if_neg hc]

/-- A block device of 4096 bytes with the requested size "1G": nothing is called,
though every qemu operation would fail. -/
theorem resize_block_device_witness :
    resize (testEnv fakeOpsAllErrors (fun _ => -1) (fun _ => 4096)) testProcessor
        (Sys.mk (newMock "" "" "" none) []) =
      (Except.ok (Complete, none), Sys.mk (newMock "" "" "" none) []) :=
  resize_block_device (testEnv fakeOpsAllErrors (fun _ => -1) (fun _ => 4096)) testProcessor
    (Sys.mk (newMock "" "" "" none) []) (by decide)

/-- C12 fails on the code, at the input of the unit test "Should not resize and
return complete, when requestedSize is valid, but datadir doesn't exist (block
device)" (data-processor_test.go, l.238-248), which expects (Complete, nil):
the processor is `NewDataProcessor(mdp, "dest", "dataDir", "scratchDataDir",
"1G")`, neither "dataDir" nor "dest" exists, so that both space helpers answer
-1, and the qemu operations are not replaced, so that Info fails on "dest".
With the requested size "1G" and `GetAvailableSpaceBlock("dest") = -1`, which is
negative, `resize` is not a no-op: it calls `QemuOps.Info` and, that call
failing, returns Error with the wrapped error. -/
theorem resize_negative_block_space_resizes :
    NewDataProcessor (testEnv fakeOpsAllErrors (fun _ => -1) (fun _ => -1)) "dest" "dataDir"
        "scratchDataDir" "1G" (newMock "" "" "" none) = Except.ok testProcessor ∧
    (testProcessor.requestImageSize ≠ "" ∧
      (testEnv fakeOpsAllErrors (fun _ => -1) (fun _ => -1)).GetAvailableSpaceBlock
        testProcessor.dataFile (newMock "" "" "" none) < 0) ∧
    resize (testEnv fakeOpsAllErrors (fun _ => -1) (fun _ => -1)) testProcessor
        (Sys.mk (newMock "" "" "" none) []) =
      (Except.ok (Error, some (GoError.wrapped (GoError.created "qemu should not be called")
          "Resize of image failed")),
        Sys.mk (newMock "" "" "" none) [Event.qemuInfo (some (URL.mk "dest"))]) ∧
    ¬ (resize (testEnv fakeOpsAllErrors (fun _ => -1) (fun _ => -1)) testProcessor
        (Sys.mk (newMock "" "" "" none) []) =
      (Except.ok (Complete, none), Sys.mk (newMock "" "" "" none) [])) := by
  refine ⟨rfl, ⟨by decide, by decide⟩, rfl, ?_⟩
  intro h
  have h1 := congrArg (fun r => r.2.trace.length) h
  revert h1
  decide

/-- C13: for every data file, every total target space and every behaviour of the
qemu operations, `ResizeImage` called with an empty image size returns a
non-nil error, the error of Info when Info fails and the blank-resize error
otherwise, and its only call is `QemuOps.Info`: Resize is never called. -/
theorem ResizeImage_blank_size (env : Env W) (dataFile : String) (t : Int) (st : Sys W) :
    (∃ e, (ResizeImage env dataFile "" t st).1 = Except.ok (some e) ∧
      ((env.qemuInfo (env.urlParse dataFile) st.world).1.2 = none →
        e = GoError.created "Image resize called with blank resize") ∧
      (∀ e1, (env.qemuInfo (env.urlParse dataFile) st.world).1.2 = some e1 → e = e1)) ∧
    (ResizeImage env dataFile "" t st).2 =
      Sys.mk (env.qemuInfo (env.urlParse dataFile) st.world).2
        (st.trace ++ [Event.qemuInfo (env.urlParse dataFile)]) ∧
    (∀ dest size, Event.qemuResize dest size ∉ (ResizeImage env dataFile "" t st).2.trace.drop
      st.trace.length) := by
  have h2 : (callQemuInfo env (env.urlParse dataFile) st).2 =
      Sys.mk (env.qemuInfo (env.urlParse dataFile) st.world).2
        (st.trace ++ [Event.qemuInfo (env.urlParse dataFile)]) := rfl
  have hblank : ¬ (("" : String) ≠ "") := fun h => h rfl
  rcases he : (env.qemuInfo (env.urlParse dataFile) st.world).1.2 with _ | e1
  · have he1 : (callQemuInfo env (env.urlParse dataFile) st).1.2 = none := he
    have hres : ResizeImage env dataFile "" t st =
        (Except.ok (some (GoError.created "Image resize called with blank resize")),
          (callQemuInfo env (env.urlParse dataFile) st).2) := by
      simp only [ResizeImage, he1, if_neg hblank]
    rw [hres, h2]
    refine ⟨⟨_, rfl, fun _ => rfl, fun e1 h => by simp at h⟩, rfl, ?_⟩
    intro dest size hmem
    simp at hmem
  · have he1 : (callQemuInfo env (env.urlParse dataFile) st).1.2 = some e1 := he
    have hres : ResizeImage env dataFile "" t st =
        (Except.ok (some e1), (callQemuInfo env (env.urlParse dataFile) st).2) := by
      simp only [ResizeImage, he1]
    rw [hres, h2]
    refine ⟨⟨_, rfl, fun h => by simp at h, fun e2 h => by simpa using h⟩, rfl, ?_⟩
    intro dest size hmem
    simp at hmem

/-! ## The available space of a new processor -/

theorem calculateTargetSize_blank (env : Env W) (dp : DataProcessor) (w : W)
    (h : dp.requestImageSize = "") :
    calculateTargetSize env dp w =
      Except.ok (env.AsInt64 (HeldQuantity.scaled
        (if env.GetAvailableSpace dp.dataDir w > 0 then env.GetAvailableSpace dp.dataDir w
          else env.GetAvailableSpaceBlock dp.dataFile w) 0)).1 := by
  have hb : ¬ (dp.requestImageSize ≠ "") := fun hne => hne h
  simp only [calculateTargetSize, if_neg hb]
  split <;> rfl

theorem calculateTargetSize_requested (env : Env W) (dp : DataProcessor) (w : W) (q : Quantity)
    (h : dp.requestImageSize ≠ "") (hq : env.MustParse dp.requestImageSize = some q) :
    calculateTargetSize env dp w =
      Except.ok (env.AsInt64 (HeldQuantity.MinQuantity (HeldQuantity.scaled
        (if env.GetAvailableSpace dp.dataDir w > 0 then env.GetAvailableSpace dp.dataDir w
          else env.GetAvailableSpaceBlock dp.dataFile w) 0)
        (HeldQuantity.parsed dp.requestImageSize q))).1 := by
  simp only [calculateTargetSize, if_pos h, hq]
  split <;> rfl

theorem NewDataProcessor_blank (env : Env W)
    (dataFile dataDir scratchDataDir requestImageSize : String) (w : W)
    (hbase : env.AsInt64 (HeldQuantity.scaled
        (if env.GetAvailableSpace dataDir w > 0 then env.GetAvailableSpace dataDir w
          else env.GetAvailableSpaceBlock dataFile w) 0) =
      (if env.GetAvailableSpace dataDir w > 0 then env.GetAvailableSpace dataDir w
        else env.GetAvailableSpaceBlock dataFile w, true))
    (hblank : requestImageSize = "") :
    NewDataProcessor env dataFile dataDir scratchDataDir requestImageSize w =
      Except.ok (DataProcessor.mk Info dataFile dataDir scratchDataDir requestImageSize
        (if env.GetAvailableSpace dataDir w > 0 then env.GetAvailableSpace dataDir w
          else env.GetAvailableSpaceBlock dataFile w)) := by
  unfold NewDataProcessor
  simp only []
  rw [calculateTargetSize_blank env _ w hblank]
  simp only [hbase]

theorem NewDataProcessor_requested_below (env : Env W)
    (dataFile dataDir scratchDataDir requestImageSize : String) (w : W) (q : Quantity)
    (hne : requestImageSize ≠ "") (hq : env.MustParse requestImageSize = some q)
    (hle : q ≤ (((if env.GetAvailableSpace dataDir w > 0 then env.GetAvailableSpace dataDir w
        else env.GetAvailableSpaceBlock dataFile w : Int)) : ℚ)) :
    NewDataProcessor env dataFile dataDir scratchDataDir requestImageSize w =
      Except.ok (DataProcessor.mk Info dataFile dataDir scratchDataDir requestImageSize
        (env.AsInt64 (HeldQuantity.parsed requestImageSize q)).1) := by
  unfold NewDataProcessor
  simp only []
  rw [calculateTargetSize_requested env _ w q hne hq]
  have hc : ¬ (Cmp (HeldQuantity.parsed requestImageSize q).number
      (HeldQuantity.scaled
        (if env.GetAvailableSpace dataDir w > 0 then env.GetAvailableSpace dataDir w
          else env.GetAvailableSpaceBlock dataFile w) 0).number = 1) := by
    rw [Cmp_eq_one_iff]
    simp only [HeldQuantity.number, NewScaledQuantity_zero]
    exact not_lt.mpr hle
  simp only [HeldQuantity.MinQuantity, if_neg hc]

/-- C14 fails on the code: for a file system target with 200Ti bytes available and
the requested size "100Ti", which is the whole number 109951162777600 of
bytes, in the int64 range, NewDataProcessor sets the available space to 0 and
not to the smaller of the two, 109951162777600.  `MinQuantity` returns the
parsed quantity, which the library keeps as an arbitrary-precision decimal (a
binary suffix of 2^40 after three digits is beyond what its parser keeps as an
int64 amount); `AsInt64` answers zero and false for it, and
`calculateTargetSize` drops the second result. -/
theorem NewDataProcessor_availableSpace_dropped_flag :
    wholeQuantity "100Ti" = some 109951162777600 ∧
    heldAsInt64 (HeldQuantity.parsed "100Ti" 109951162777600) = (0, false) ∧
    NewDataProcessor (testEnv fakeOpsOk largeTestSpace (fun _ => -1)) "/data/disk.img" "/data"
        "/scratch" "100Ti" (newMock "" "" "" none) =
      Except.ok (DataProcessor.mk Info "/data/disk.img" "/data" "/scratch" "100Ti" 0) ∧
    (0 : Int) ≠ min (largeTestSpace "/data") 109951162777600 := by
  have hq : wholeQuantity "100Ti" = some 109951162777600 := by decide
  refine ⟨hq, by decide, ?_, by decide⟩
  rw [NewDataProcessor_requested_below (testEnv fakeOpsOk largeTestSpace (fun _ => -1))
    "/data/disk.img" "/data" "/scratch" "100Ti" (newMock "" "" "" none) 109951162777600
    (by decide) hq (by decide)]
  rfl

/-! ## What a run changes, and the deferred cleanup -/

theorem ProcessDataLoop_frame (env : Env W) (fuel : Nat) :
    ∀ (dp : DataProcessor) (err : Option GoError) (st : Sys W)
      (out : Except Panic (Option GoError)) (dp1 : DataProcessor) (st1 : Sys W),
      ProcessDataLoop env fuel dp err st = some (out, dp1, st1) →
      dp1 = { dp with currentPhase := dp1.currentPhase } := by
  induction fuel with
  | zero =>
    intro dp err st out dp1 st1 h
    simp [ProcessDataLoop] at h
  | succ k ih =>
    intro dp err st out dp1 st1 h
    by_cases hC : dp.currentPhase = Complete
    · rw [ProcessDataLoop_Complete env k dp err st hC] at h
      simp only [Option.some.injEq, Prod.mk.injEq] at h
      rw [← h.2.1]
    · simp only [ProcessDataLoop, hC, if_false] at h
      split at h
      · simp only [Option.some.injEq, Prod.mk.injEq] at h
        rw [← h.2.1]
      · simp only [Option.some.injEq, Prod.mk.injEq] at h
        rw [← h.2.1]
      · split at h
        · simp only [Option.some.injEq, Prod.mk.injEq] at h
          rw [← h.2.1]
        · have := ih _ _ _ out dp1 st1 h
          rw [this]

/-- C15: for every run of ProcessData that returns, the processor afterwards is
the processor before with at most currentPhase changed: dataFile, dataDir,
scratchDataDir, requestImageSize and availableSpace are the same after as
before.  In the embedding `convert` and `resize` receive the processor and
return only the next phase and error (the Go methods assign to no field), so
the loop of ProcessData is the only place where a field is assigned. -/
theorem ProcessData_frame (env : Env W) (fuel : Nat) (dp dp1 : DataProcessor) (st st1 : Sys W)
    (out : Except Panic (Option GoError))
    (hrun : ProcessData env fuel dp st = some (out, dp1, st1)) :
    dp1 = { dp with currentPhase := dp1.currentPhase } ∧
    dp1.availableSpace = dp.availableSpace ∧ dp1.dataFile = dp.dataFile ∧
    dp1.dataDir = dp.dataDir ∧ dp1.scratchDataDir = dp.scratchDataDir ∧
    dp1.requestImageSize = dp.requestImageSize := by
  unfold ProcessData at hrun
  rcases hl : ProcessDataLoop env fuel dp none st with _ | ⟨o, d, s⟩
  · simp [hl] at hrun
  · simp only [hl, Option.some.injEq, Prod.mk.injEq] at hrun
    obtain ⟨_, h2, _⟩ := hrun
    subst h2
    have hf := ProcessDataLoop_frame env fuel dp none st o d s hl
    refine ⟨hf, ?_, ?_, ?_, ?_, ?_⟩ <;> rw [hf]

/-- The run of the unit test "should call Convert after Process phase": after
it the processor differs from the one before in its phase only. -/
theorem ProcessData_frame_witness :
    ProcessData (testEnv fakeOpsOk convertTestSpace (fun _ => -1)) 6 convertTestProcessor
        convertTestStart =
      some (Except.ok none, { convertTestProcessor with currentPhase := Complete },
        convertTestEnd) ∧
    ({ convertTestProcessor with currentPhase := Complete } : DataProcessor).availableSpace =
      convertTestProcessor.availableSpace ∧
    ({ convertTestProcessor with currentPhase := Complete } : DataProcessor).dataFile =
      convertTestProcessor.dataFile :=
  ⟨rfl,
    (ProcessData_frame (testEnv fakeOpsOk convertTestSpace (fun _ => -1)) 6 convertTestProcessor
      { convertTestProcessor with currentPhase := Complete } convertTestStart convertTestEnd
      (Except.ok none) (by rfl)).2.1,
    (ProcessData_frame (testEnv fakeOpsOk convertTestSpace (fun _ => -1)) 6 convertTestProcessor
      { convertTestProcessor with currentPhase := Complete } convertTestStart convertTestEnd
      (Except.ok none) (by rfl)).2.2.1⟩

theorem phaseSwitch_trace (env : Env W) (dp : DataProcessor) (st : Sys W) :
    (∀ ph err st1, phaseSwitch env dp st = Switched.assigned ph err st1 →
      ∃ rest, st1.trace = st.trace ++ rest ∧
        ∀ ev ∈ rest, (ev.isSource = true ∨ ev.isQemu = true) ∧ ev ≠ Event.sourceClose) ∧
    (∀ p st1, phaseSwitch env dp st = Switched.panicked p st1 →
      ∃ rest, st1.trace = st.trace ++ rest ∧
        ∀ ev ∈ rest, (ev.isSource = true ∨ ev.isQemu = true) ∧ ev ≠ Event.sourceClose) := by
  have one : ∀ (ev : Event), (ev.isSource = true ∨ ev.isQemu = true) → ev ≠ Event.sourceClose →
      ∀ e ∈ [ev], (e.isSource = true ∨ e.isQemu = true) ∧ e ≠ Event.sourceClose := by
    intro ev h1 h2 e he
    simp only [List.mem_singleton] at he
    subst he
    exact ⟨h1, h2⟩
  have qemu : ∀ (l : List Event), (∀ ev ∈ l, ev.isQemu = true) →
      ∀ ev ∈ l, (ev.isSource = true ∨ ev.isQemu = true) ∧ ev ≠ Event.sourceClose := by
    intro l hl ev hev
    refine ⟨Or.inr (hl ev hev), ?_⟩
    intro hc
    have := hl ev hev
    rw [hc] at this
    simp [Event.isQemu] at this
  unfold phaseSwitch
  simp only []
  split
  · refine ⟨fun ph err st1 h => ?_, fun p st1 h => by simp at h⟩
    simp only [Switched.assigned.injEq] at h
    rw [← h.2.2]
    exact ⟨[Event.sourceInfo], rfl, one _ (Or.inl rfl) (by simp)⟩
  · split
    · refine ⟨fun ph err st1 h => ?_, fun p st1 h => by split at h <;> simp at h⟩
      have hst : st1 = (callSourceTransfer env dp.scratchDataDir st).2 := by
        split at h <;> simp only [Switched.assigned.injEq] at h <;> exact h.2.2.symm
      rw [hst]
      exact ⟨[Event.sourceTransfer dp.scratchDataDir], rfl, one _ (Or.inl rfl) (by simp)⟩
    · split
      · refine ⟨fun ph err st1 h => ?_, fun p st1 h => by simp at h⟩
        simp only [Switched.assigned.injEq] at h
        rw [← h.2.2]
        exact ⟨[Event.sourceTransfer dp.dataDir], rfl, one _ (Or.inl rfl) (by simp)⟩
      · split
        · refine ⟨fun ph err st1 h => ?_, fun p st1 h => by simp at h⟩
          simp only [Switched.assigned.injEq] at h
          rw [← h.2.2]
          exact ⟨[Event.sourceProcess], rfl, one _ (Or.inl rfl) (by simp)⟩
        · split
          · refine ⟨fun ph err st1 h => ?_, fun p st1 h => by simp at h⟩
            simp only [Switched.assigned.injEq] at h
            rw [← h.2.2]
            obtain ⟨rest, h1, h2⟩ :=
              convert_trace env dp (callSourceGetURL env st).1 (callSourceGetURL env st).2
            refine ⟨Event.sourceGetURL :: rest, ?_, ?_⟩
            · rw [h1]
              simp [callSourceGetURL, Sys.call]
            · intro ev hev
              rcases List.mem_cons.mp hev with h | h
              · subst h
                exact ⟨Or.inl rfl, by simp⟩
              · exact qemu rest (fun e he => (h2 e he).1) ev h
          · split
            · obtain ⟨rest, h1, h2⟩ := resize_trace env dp st
              constructor
              · intro ph err st1 h
                split at h
                · simp at h
                · simp only [Switched.assigned.injEq] at h
                  rw [← h.2.2]
                  exact ⟨rest, h1, qemu rest h2⟩
              · intro p st1 h
                split at h
                · simp only [Switched.panicked.injEq] at h
                  rw [← h.2]
                  exact ⟨rest, h1, qemu rest h2⟩
                · simp at h
            · exact ⟨fun ph err st1 h => by simp at h, fun p st1 h => by simp at h⟩

theorem ProcessDataLoop_trace (env : Env W) (fuel : Nat) :
    ∀ (dp : DataProcessor) (err : Option GoError) (st : Sys W)
      (out : Except Panic (Option GoError)) (dp1 : DataProcessor) (st1 : Sys W),
      ProcessDataLoop env fuel dp err st = some (out, dp1, st1) →
      ∃ rest, st1.trace = st.trace ++ rest ∧
        ∀ ev ∈ rest, (ev.isSource = true ∨ ev.isQemu = true) ∧ ev ≠ Event.sourceClose := by
  induction fuel with
  | zero =>
    intro dp err st out dp1 st1 h
    simp [ProcessDataLoop] at h
  | succ k ih =>
    intro dp err st out dp1 st1 h
    by_cases hC : dp.currentPhase = Complete
    · rw [ProcessDataLoop_Complete env k dp err st hC] at h
      simp only [Option.some.injEq, Prod.mk.injEq] at h
      rw [← h.2.2]
      exact ⟨[], by simp, by simp⟩
    · simp only [ProcessDataLoop, hC, if_false] at h
      split at h
      · simp only [Option.some.injEq, Prod.mk.injEq] at h
        rw [← h.2.2]
        exact ⟨[], by simp, by simp⟩
      · rename_i p stn hsw
        simp only [Option.some.injEq, Prod.mk.injEq] at h
        rw [← h.2.2]
        exact (phaseSwitch_trace env dp st).2 p stn hsw
      · rename_i ph err1 stn hsw
        obtain ⟨r1, hr1, hq1⟩ := (phaseSwitch_trace env dp st).1 ph err1 stn hsw
        split at h
        · simp only [Option.some.injEq, Prod.mk.injEq] at h
          rw [← h.2.2]
          exact ⟨r1, hr1, hq1⟩
        · obtain ⟨r2, hr2, hq2⟩ := ih _ _ _ out dp1 st1 h
          refine ⟨r1 ++ r2, ?_, ?_⟩
          · rw [hr2, hr1, List.append_assoc]
          · intro ev hev
            rcases List.mem_append.mp hev with h | h
            · exact hq1 ev h
            · exact hq2 ev h

/-- C16: for every run of ProcessData that returns, whatever it returns (nil at
Complete, the error of a phase, the unknown-phase error) or if it panics: the
loop ends in a state `stl` having added source and qemu calls only, no
CleanDir among them.  When `GetAvailableSpace(scratchDataDir)` was positive at
entry, the run then performs `CleanDir(scratchDataDir)` once: the world after
the run is `CleanDir(scratchDataDir)` applied to the world the loop left, and
the one CleanDir event comes after the last call of the loop.  When it was zero
or negative at entry no CleanDir is performed: the run ends in the state that
the loop left. -/
theorem ProcessData_cleanup (env : Env W) (fuel : Nat) (dp dp1 : DataProcessor) (st st1 : Sys W)
    (out : Except Panic (Option GoError))
    (hrun : ProcessData env fuel dp st = some (out, dp1, st1)) :
    ∃ (stl : Sys W) (rest : List Event),
      ProcessDataLoop env fuel dp none st = some (out, dp1, stl) ∧
      stl.trace = st.trace ++ rest ∧
      (∀ ev ∈ rest, (ev.isSource = true ∨ ev.isQemu = true) ∧
        ∀ path, ev ≠ Event.cleanDir path) ∧
      (0 < env.GetAvailableSpace dp.scratchDataDir st.world →
        st1.world = env.CleanDir dp.scratchDataDir stl.world ∧
        st1.trace = st.trace ++ rest ++ [Event.cleanDir dp.scratchDataDir]) ∧
      (env.GetAvailableSpace dp.scratchDataDir st.world ≤ 0 → st1 = stl) := by
  unfold ProcessData at hrun
  rcases hl : ProcessDataLoop env fuel dp none st with _ | ⟨o, d, s⟩
  · simp [hl] at hrun
  · simp only [hl, Option.some.injEq, Prod.mk.injEq] at hrun
    obtain ⟨h1, h2, h3⟩ := hrun
    obtain ⟨rest, hr, hq⟩ := ProcessDataLoop_trace env fuel dp none st o d s hl
    refine ⟨s, rest, by rw [h1, h2], hr, ?_, ?_, ?_⟩
    · intro ev hev
      refine ⟨(hq ev hev).1, ?_⟩
      intro path hc
      have := (hq ev hev).1
      rw [hc] at this
      simp [Event.isSource, Event.isQemu] at this
    · intro hpos
      constructor
      · rw [← h3]
        simp only [deferredCleanDir, if_pos hpos, callCleanDir, Sys.call]
      · rw [← h3, deferredCleanDir_trace, hr, if_pos hpos]
    · intro hneg
      rw [← h3]
      simp only [deferredCleanDir, if_neg (not_lt.mpr hneg)]

/-- A source that stores the file "image" in the scratch directory "/tmp/scratch",
which exists: the loop leaves the file there after Info, Transfer and Process,
and the run ends with the scratch directory emptied by one CleanDir, its last
call. -/
theorem ProcessData_cleanup_witness :
    ProcessData storingEnv 4 convertTestProcessor (Sys.mk [] []) =
      some (Except.ok none, { convertTestProcessor with currentPhase := Complete },
        Sys.mk []
          [Event.sourceInfo, Event.sourceTransfer "/tmp/scratch", Event.sourceProcess,
            Event.cleanDir "/tmp/scratch"]) ∧
    ProcessDataLoop storingEnv 4 convertTestProcessor none (Sys.mk [] []) =
      some (Except.ok none, { convertTestProcessor with currentPhase := Complete },
        Sys.mk [("/tmp/scratch", "image")]
          [Event.sourceInfo, Event.sourceTransfer "/tmp/scratch", Event.sourceProcess]) ∧
    ∃ (stl : Sys Files) (rest : List Event),
      ProcessDataLoop storingEnv 4 convertTestProcessor none (Sys.mk [] []) =
        some (Except.ok none, { convertTestProcessor with currentPhase := Complete }, stl) ∧
      stl.trace = [] ++ rest ∧
      (∀ ev ∈ rest, (ev.isSource = true ∨ ev.isQemu = true) ∧
        ∀ path, ev ≠ Event.cleanDir path) ∧
      (0 < convertTestSpace "/tmp/scratch" →
        ([] : Files) = storingEnv.CleanDir "/tmp/scratch" stl.world ∧
        [Event.sourceInfo, Event.sourceTransfer "/tmp/scratch", Event.sourceProcess,
            Event.cleanDir "/tmp/scratch"] =
          [] ++ rest ++ [Event.cleanDir "/tmp/scratch"]) ∧
      (convertTestSpace "/tmp/scratch" ≤ 0 →
        Sys.mk ([] : Files)
          [Event.sourceInfo, Event.sourceTransfer "/tmp/scratch", Event.sourceProcess,
            Event.cleanDir "/tmp/scratch"] = stl) :=
  ⟨rfl, rfl, ProcessData_cleanup storingEnv 4 convertTestProcessor
    { convertTestProcessor with currentPhase := Complete } (Sys.mk [] [])
    (Sys.mk []
      [Event.sourceInfo, Event.sourceTransfer "/tmp/scratch", Event.sourceProcess,
        Event.cleanDir "/tmp/scratch"])
    (Except.ok none) (by rfl)⟩

/-! ## The bound given to Validate, and the phase Pause -/

theorem convert_first_event (env : Env W) (dp : DataProcessor) (url : Option URL) (st : Sys W) :
    ∃ rest, (convert env dp url st).2.trace =
      st.trace ++ Event.qemuValidate url dp.availableSpace :: rest := by
  rcases h1 : (env.qemuValidate url dp.availableSpace st.world).1 with _ | e
  · rcases h2 : (env.qemuConvertToRawStream url dp.dataFile
        (env.qemuValidate url dp.availableSpace st.world).2).1 with _ | e2
    · exact ⟨[Event.qemuConvertToRawStream url dp.dataFile], by
        rw [convert_of_success env dp url st h1 h2]⟩
    · exact ⟨[Event.qemuConvertToRawStream url dp.dataFile], by
        rw [convert_of_stream_error env dp url st e2 h1 h2]⟩
  · exact ⟨[], by rw [convert_of_validate_error env dp url st e h1]⟩

/-- C17, as amended: the bound that `convert` passes to `QemuOps.Validate`, the
first call it makes, is the available space of the processor, whatever the
processor is; and for a file system target with `a` bytes available and no
requested size, NewDataProcessor sets that available space to `a` itself
(`AsInt64` giving back the int64 amount `a` of scale 0, as the library does for
every such amount), so that the bound is `a`.  No file system overhead enters
this bound. -/
theorem convert_bound_is_availableSpace (env : Env W)
    (dataFile dataDir scratchDataDir : String) (w : W) (url : Option URL) (st : Sys W)
    (hfs : 0 < env.GetAvailableSpace dataDir w)
    (hAs : env.AsInt64 (HeldQuantity.scaled (env.GetAvailableSpace dataDir w) 0) =
      (env.GetAvailableSpace dataDir w, true)) :
    (∀ dp : DataProcessor, ∃ rest, (convert env dp url st).2.trace =
      st.trace ++ Event.qemuValidate url dp.availableSpace :: rest) ∧
    NewDataProcessor env dataFile dataDir scratchDataDir "" w =
      Except.ok (DataProcessor.mk Info dataFile dataDir scratchDataDir ""
        (env.GetAvailableSpace dataDir w)) ∧
    ∃ rest, (convert env (DataProcessor.mk Info dataFile dataDir scratchDataDir ""
        (env.GetAvailableSpace dataDir w)) url st).2.trace =
      st.trace ++ Event.qemuValidate url (env.GetAvailableSpace dataDir w) :: rest := by
  have hbase : env.AsInt64 (HeldQuantity.scaled
        (if env.GetAvailableSpace dataDir w > 0 then env.GetAvailableSpace dataDir w
          else env.GetAvailableSpaceBlock dataFile w) 0) =
      (if env.GetAvailableSpace dataDir w > 0 then env.GetAvailableSpace dataDir w
        else env.GetAvailableSpaceBlock dataFile w, true) := by
    rw [if_pos hfs]
    exact hAs
  have hnew := NewDataProcessor_blank env dataFile dataDir scratchDataDir "" w hbase rfl
  rw [if_pos hfs] at hnew
  exact ⟨fun dp => convert_first_event env dp url st, hnew,
    convert_first_event env (DataProcessor.mk Info dataFile dataDir scratchDataDir ""
      (env.GetAvailableSpace dataDir w)) url st⟩

/-- A file system target with 2048 bytes available and no requested size: the
processor is built with an available space of 2048 and Validate is called with
the bound 2048. -/
theorem convert_bound_is_availableSpace_witness :
    NewDataProcessor (testEnv fakeOpsOk fsTestSpace (fun _ => -1)) "/data/disk.img"
        "/data" "/scratch" "" (newMock "" "" "" none) =
      Except.ok (DataProcessor.mk Info "/data/disk.img" "/data" "/scratch" "" 2048) ∧
    ∃ rest, (convert (testEnv fakeOpsOk fsTestSpace (fun _ => -1))
        (DataProcessor.mk Info "/data/disk.img" "/data" "/scratch" "" 2048)
        (some (URL.mk "http://fakeurl-notreal.fake")) (Sys.mk (newMock "" "" "" none) [])).2.trace =
      [] ++ Event.qemuValidate (some (URL.mk "http://fakeurl-notreal.fake")) 2048 :: rest :=
  (convert_bound_is_availableSpace (testEnv fakeOpsOk fsTestSpace (fun _ => -1))
    "/data/disk.img" "/data" "/scratch" (newMock "" "" "" none)
    (some (URL.mk "http://fakeurl-notreal.fake")) (Sys.mk (newMock "" "" "" none) [])
    (by decide) (by decide)).2

/-- C17 as stated fails: for a file system target with 2048 bytes available and
the default overhead 0.055, the bound that `convert` passes to Validate is 2048,
whereas the effective available space `floor(2048 * (1 - 0.055))` is 1935. -/
theorem convert_bound_without_overhead :
    NewDataProcessor (testEnv fakeOpsOk fsTestSpace (fun _ => -1)) "/data/disk.img" "/data"
        "/scratch" "" (newMock "" "" "" none) =
      Except.ok (DataProcessor.mk Info "/data/disk.img" "/data" "/scratch" "" 2048) ∧
    (convert (testEnv fakeOpsOk fsTestSpace (fun _ => -1))
        (DataProcessor.mk Info "/data/disk.img" "/data" "/scratch" "" 2048)
        (some (URL.mk "http://fakeurl-notreal.fake")) (Sys.mk (newMock "" "" "" none) [])).2.trace =
      [Event.qemuValidate (some (URL.mk "http://fakeurl-notreal.fake")) 2048,
        Event.qemuConvertToRawStream (some (URL.mk "http://fakeurl-notreal.fake"))
          "/data/disk.img"] ∧
    ⌊((2048 : Int) : ℚ) * (1 - 55 / 1000)⌋ = 1935 ∧
    (2048 : Int) ≠ ⌊((2048 : Int) : ℚ) * (1 - 55 / 1000)⌋ := by
  have hfloor : ⌊((2048 : Int) : ℚ) * (1 - 55 / 1000)⌋ = 1935 := by
    rw [Int.floor_eq_iff]
    constructor <;> norm_num
  refine ⟨rfl, rfl, hfloor, ?_⟩
  rw [hfloor]
  decide

/-- C18, as amended: at any point of a run, when the source call of the current
phase answers the phase Pause without error, ProcessData stops dispatching: the
switch has no case for Pause, so, given fuel for two evaluations of the loop
condition or more, it returns the unknown-phase error for Pause (not nil), with
the phase left at Pause; the call that answered Pause is the last source or
qemu call, only the deferred CleanDir may follow it. -/
theorem ProcessData_Pause (env : Env W) (dp : DataProcessor) (st : Sys W)
    (r : (ProcessingPhase × Option GoError) × Sys W) (n : Nat)
    (hcall : SourceCall env dp st r) (hnil : r.1.2 = none) (hp : r.1.1 = Pause) :
    ProcessData env (n + 2) dp st =
        some (Except.ok (some (unknownPhaseError Pause)), { dp with currentPhase := Pause },
          deferredCleanDir env dp st r.2) ∧
      (∃ ev, ev.isSource = true ∧ r.2.trace = st.trace ++ [ev]) ∧
      (deferredCleanDir env dp st r.2).trace = r.2.trace ++
        (if env.GetAvailableSpace dp.scratchDataDir st.world > 0
          then [Event.cleanDir dp.scratchDataDir] else []) := by
  refine ⟨?_, SourceCall_trace env dp st r hcall, deferredCleanDir_trace env dp st r.2⟩
  apply ProcessData_of_loop
  have hno : ¬ (dp.currentPhase = Transfer ∧ (none : Option GoError) = some ErrInvalidPath) := by
    simp
  rw [SourceCall_loop env (n + 1) dp none st r hcall, hnil, if_neg hno, hp]
  simp only []
  have hun : ({ dp with currentPhase := Pause } : DataProcessor).currentPhase ∉
      [Info, Transfer, TransferTarget, Process, Convert, Resize, Complete] := by
    show Pause ∉ [Info, Transfer, TransferTarget, Process, Convert, Resize, Complete]
    decide
  exact ProcessDataLoop_undispatched env n _ none r.2 hun

/-- A scripted source whose Info answers Pause without error: the run stops
after that call with the unknown-phase error. -/
theorem ProcessData_Pause_witness :
    ProcessData (scriptedEnv fakeOpsOk (fun _ => -1) (fun _ => -1)) 2 testProcessor
        (Sys.mk [(Pause, none)] []) =
      some (Except.ok (some (GoError.created "Unknown processing phase Pause")),
        { testProcessor with currentPhase := Pause }, Sys.mk [] [Event.sourceInfo]) :=
  (ProcessData_Pause (scriptedEnv fakeOpsOk (fun _ => -1) (fun _ => -1)) testProcessor
    (Sys.mk [(Pause, none)] [])
    (callSourceInfo (scriptedEnv fakeOpsOk (fun _ => -1) (fun _ => -1))
      (Sys.mk [(Pause, none)] [])) 0 (Or.inl ⟨rfl, rfl⟩) rfl rfl).1

/-- C18 as stated fails: when Info answers Pause without error, the run that
follows returns an error, the unknown-phase error, and not nil. -/
theorem ProcessData_Pause_returns_error :
    ¬ (∀ out dp1 st1,
      ProcessData (scriptedEnv fakeOpsOk (fun _ => -1) (fun _ => -1)) 2 testProcessor
          (Sys.mk [(Pause, none)] []) = some (out, dp1, st1) →
      out = Except.ok none) := by
  intro h
  have h1 := h (Except.ok (some (GoError.created "Unknown processing phase Pause")))
    { testProcessor with currentPhase := Pause } (Sys.mk [] [Event.sourceInfo]) (by rfl)
  simp at h1

/-! ## resize on a file system, and what the processor leaves to others -/

/-- C25: for every processor with a non-empty requested size whose data file is
not a block device (`GetAvailableSpaceBlock(dataFile) < 0`), `resize` is one
call of `ResizeImage(dataFile, requestImageSize, availableSpace)`: the state
after `resize` is the state after that call, `resize` returns (Complete, nil)
when the call returns nil and (Error, the wrapped error) when it returns an
error.  When `GetAvailableSpaceBlock(dataFile) ≥ 0`, ResizeImage is not called:
the state is unchanged and `resize` returns (Complete, nil). -/
theorem resize_calls_ResizeImage (env : Env W) (dp : DataProcessor) (st : Sys W)
    (hsize : dp.requestImageSize ≠ "") :
    (env.GetAvailableSpaceBlock dp.dataFile st.world < 0 →
      (resize env dp st).2 =
          (ResizeImage env dp.dataFile dp.requestImageSize dp.availableSpace st).2 ∧
        ((ResizeImage env dp.dataFile dp.requestImageSize dp.availableSpace st).1 =
            Except.ok none →
          (resize env dp st).1 = Except.ok (Complete, none)) ∧
        (∀ e, (ResizeImage env dp.dataFile dp.requestImageSize dp.availableSpace st).1 =
            Except.ok (some e) →
          (resize env dp st).1 =
            Except.ok (Error, some (GoError.wrapped e "Resize of image failed")))) ∧
    (0 ≤ env.GetAvailableSpaceBlock dp.dataFile st.world →
      resize env dp st = (Except.ok (Complete, none), st)) := by
  constructor
  · intro hneg
    have hc : dp.requestImageSize ≠ "" ∧ env.GetAvailableSpaceBlock dp.dataFile st.world < 0 :=
      ⟨hsize, hneg⟩
    refine ⟨?_, ?_, ?_⟩
    · rcases hr : (ResizeImage env dp.dataFile dp.requestImageSize dp.availableSpace st).1
        with p | (_ | e) <;> simp only [resize, if_pos hc, hr]
    · intro hr
      simp only [resize, if_pos hc, hr]
    · intro e hr
      simp only [resize, if_pos hc, hr]
  · intro hblock
    have hc : ¬ (dp.requestImageSize ≠ "" ∧
        env.GetAvailableSpaceBlock dp.dataFile st.world < 0) :=
      fun hc => absurd hc.2 (not_lt.mpr hblock)
    simp only [resize, if_neg hc]

/-- The unit tests of Resize on a file system, the data file "dest" not being a
block device: with qemu operations that succeed `resize` returns Complete after
Info and Resize; with qemu operations that all fail it returns Error after the
failing Info. -/
theorem resize_calls_ResizeImage_witness :
    resize (testEnv fakeOpsOk fsTestSpace (fun _ => -1)) resizeTestProcessor
        (Sys.mk (newMock "" "" "" none) []) =
      (Except.ok (Complete, none), Sys.mk (newMock "" "" "" none)
        [Event.qemuInfo (some (URL.mk "dest")), Event.qemuResize "dest" 2048]) ∧
    (resize (testEnv fakeOpsAllErrors fsTestSpace (fun _ => -1)) resizeTestProcessor
        (Sys.mk (newMock "" "" "" none) [])).1 =
      Except.ok (Error, some (GoError.wrapped (GoError.created "qemu should not be called")
        "Resize of image failed")) :=
  ⟨Prod.ext
      (((resize_calls_ResizeImage (testEnv fakeOpsOk fsTestSpace (fun _ => -1))
        resizeTestProcessor (Sys.mk (newMock "" "" "" none) []) (by decide)).1
        (by decide)).2.1 (by rfl))
      ((resize_calls_ResizeImage (testEnv fakeOpsOk fsTestSpace (fun _ => -1))
        resizeTestProcessor (Sys.mk (newMock "" "" "" none) []) (by decide)).1
        (by decide)).1,
    ((resize_calls_ResizeImage (testEnv fakeOpsAllErrors fsTestSpace (fun _ => -1))
      resizeTestProcessor (Sys.mk (newMock "" "" "" none) []) (by decide)).1
      (by decide)).2.2 (GoError.created "qemu should not be called") (by rfl)⟩

/-- C27: at any point of a run in a source-driven phase other than the scratch
transfer, in particular in the phase TransferTarget, an ErrInvalidPath returned
by the source call is not translated: ProcessData, given any fuel at all,
returns ErrInvalidPath itself, which is not ErrRequiresScratchSpace. -/
theorem ProcessData_target_invalid_path (env : Env W) (dp : DataProcessor) (st : Sys W)
    (r : (ProcessingPhase × Option GoError) × Sys W) (n : Nat)
    (hcall : SourceCall env dp st r) (hphase : dp.currentPhase ≠ Transfer)
    (herr : r.1.2 = some ErrInvalidPath) :
    ProcessData env (n + 1) dp st =
        some (Except.ok (some ErrInvalidPath), { dp with currentPhase := r.1.1 },
          deferredCleanDir env dp st r.2) ∧
      ErrInvalidPath ≠ ErrRequiresScratchSpace ∧
      (dp.currentPhase = TransferTarget → r = callSourceTransfer env dp.dataDir st) := by
  refine ⟨?_, by decide, ?_⟩
  · apply ProcessData_of_loop
    have hno : ¬ (dp.currentPhase = Transfer ∧ r.1.2 = some ErrInvalidPath) :=
      fun h => hphase h.1
    rw [SourceCall_loop env n dp none st r hcall, if_neg hno, herr]
  · intro hT
    have h1 : ¬ (TransferTarget = Info) := by decide
    have h2 : ¬ (TransferTarget = Transfer) := by decide
    have h3 : ¬ (TransferTarget = Process) := by decide
    rcases hcall with ⟨hp, _⟩ | ⟨hp, _⟩ | ⟨_, hr⟩ | ⟨hp, _⟩
    · exact absurd (hT.symm.trans hp) h1
    · exact absurd (hT.symm.trans hp) h2
    · exact hr
    · exact absurd (hT.symm.trans hp) h3

/-- A scripted source whose Transfer to the data directory, in the phase
TransferTarget, fails with ErrInvalidPath: that error is what the run returns. -/
theorem ProcessData_target_invalid_path_witness :
    ProcessData (scriptedEnv fakeOpsAllErrors (fun _ => -1) (fun _ => -1)) 1
        { testProcessor with currentPhase := TransferTarget }
        (Sys.mk [(Error, some ErrInvalidPath)] [Event.sourceInfo]) =
      some (Except.ok (some ErrInvalidPath), { testProcessor with currentPhase := Error },
        Sys.mk [] [Event.sourceInfo, Event.sourceTransfer "dataDir"]) :=
  (ProcessData_target_invalid_path (scriptedEnv fakeOpsAllErrors (fun _ => -1) (fun _ => -1))
    { testProcessor with currentPhase := TransferTarget }
    (Sys.mk [(Error, some ErrInvalidPath)] [Event.sourceInfo])
    (callSourceTransfer (scriptedEnv fakeOpsAllErrors (fun _ => -1) (fun _ => -1)) "dataDir"
      (Sys.mk [(Error, some ErrInvalidPath)] [Event.sourceInfo])) 0
    (Or.inr (Or.inr (Or.inl ⟨rfl, rfl⟩))) (by decide) rfl).1

/-- C28: for every source and every run of ProcessData that returns or panics,
successful or failing, no event the run adds is a call of `source.Close`, and
none of the events that `convert` or `resize` add is one either: closing the
source is left to the caller. -/
theorem ProcessData_never_closes (env : Env W) :
    (∀ fuel (dp dp1 : DataProcessor) (st st1 : Sys W) (out : Except Panic (Option GoError)),
      ProcessData env fuel dp st = some (out, dp1, st1) →
      Event.sourceClose ∉ st1.trace.drop st.trace.length) ∧
    (∀ (dp : DataProcessor) (url : Option URL) (st : Sys W),
      Event.sourceClose ∉ (convert env dp url st).2.trace.drop st.trace.length) ∧
    (∀ (dp : DataProcessor) (st : Sys W),
      Event.sourceClose ∉ (resize env dp st).2.trace.drop st.trace.length) := by
  refine ⟨?_, ?_, ?_⟩
  · intro fuel dp dp1 st st1 out hrun
    unfold ProcessData at hrun
    rcases hl : ProcessDataLoop env fuel dp none st with _ | ⟨o, d, s⟩
    · simp [hl] at hrun
    · simp only [hl, Option.some.injEq, Prod.mk.injEq] at hrun
      obtain ⟨_, _, h3⟩ := hrun
      obtain ⟨rest, hr, hq⟩ := ProcessDataLoop_trace env fuel dp none st o d s hl
      rw [← h3, deferredCleanDir_trace, hr, List.append_assoc, List.drop_left]
      intro hmem
      rcases List.mem_append.mp hmem with h | h
      · exact (hq _ h).2 rfl
      · split at h <;> simp at h
  · intro dp url st
    obtain ⟨rest, hr, hq⟩ := convert_trace env dp url st
    rw [hr, List.drop_left]
    intro hmem
    have := (hq _ hmem).1
    simp [Event.isQemu] at this
  · intro dp st
    obtain ⟨rest, hr, hq⟩ := resize_trace env dp st
    rw [hr, List.drop_left]
    intro hmem
    have := hq _ hmem
    simp [Event.isQemu] at this

theorem ResizeImage_of_ne (env : Env W) (dataFile s : String) (t : Int) (st : Sys W)
    (info : ImgInfo) (q : Quantity) (hs : s ≠ "") (hq : env.MustParse s = some q)
    (hinfo : (env.qemuInfo (env.urlParse dataFile) st.world).1 = (some info, none))
    (hv : (info.VirtualSize : ℚ) ≠ min (t : ℚ) q) :
    ResizeImage env dataFile s t st =
      (Except.ok (env.qemuResize dataFile (min (t : ℚ) q)
          (env.qemuInfo (env.urlParse dataFile) st.world).2).1,
        Sys.mk (env.qemuResize dataFile (min (t : ℚ) q)
          (env.qemuInfo (env.urlParse dataFile) st.world).2).2
          (st.trace ++ [Event.qemuInfo (env.urlParse dataFile),
            Event.qemuResize dataFile (min (t : ℚ) q)])) := by
  have h1 : (callQemuInfo env (env.urlParse dataFile) st).1 = (some info, none) := hinfo
  have h11 : (callQemuInfo env (env.urlParse dataFile) st).1.1 = some info := by rw [h1]
  have h12 : (callQemuInfo env (env.urlParse dataFile) st).1.2 = none := by rw [h1]
  unfold ResizeImage
  simp only [h11, h12, hq, hs, ne_eq, not_false_eq_true, if_true, MinQuantity_eq_min,
    NewScaledQuantity_zero, Cmp_eq_zero_iff, hv, if_false]
  simp [callQemuResize, callQemuInfo, Sys.call]

/-- C29: `ResizeImage` performs no shrink check of its own: for every non-empty
size `s` that parses to `q` and every total space `t`, when `QemuOps.Info`
reports a virtual size `v` greater than `min t q`, ResizeImage still calls
`QemuOps.Resize(dataFile, min t q)`, a size smaller than the current one, once,
after Info, and returns exactly what that call returns. -/
theorem ResizeImage_no_shrink_check (env : Env W) (dataFile s : String) (t : Int)
    (st : Sys W) (info : ImgInfo) (q : Quantity)
    (hs : s ≠ "") (hq : env.MustParse s = some q)
    (hinfo : (env.qemuInfo (env.urlParse dataFile) st.world).1 = (some info, none))
    (hv : min (t : ℚ) q < (info.VirtualSize : ℚ)) :
    ResizeImage env dataFile s t st =
      (Except.ok (env.qemuResize dataFile (min (t : ℚ) q)
          (env.qemuInfo (env.urlParse dataFile) st.world).2).1,
        Sys.mk (env.qemuResize dataFile (min (t : ℚ) q)
          (env.qemuInfo (env.urlParse dataFile) st.world).2).2
          (st.trace ++ [Event.qemuInfo (env.urlParse dataFile),
            Event.qemuResize dataFile (min (t : ℚ) q)])) :=
  ResizeImage_of_ne env dataFile s t st info q hs hq hinfo (ne_of_gt hv)

/-- An image of virtual size 1024 with the requested size "512" and 2048 bytes of
space: Resize is called with 512, and, the fake accepting it, nil is returned. -/
theorem ResizeImage_no_shrink_check_witness :
    ResizeImage (testEnv (fakeInfoRetOps 512) (fun _ => -1) (fun _ => -1)) "dest" "512" 2048
        (Sys.mk (newMock "" "" "" none) []) =
      (Except.ok none, Sys.mk (newMock "" "" "" none)
        [Event.qemuInfo (some (URL.mk "dest")), Event.qemuResize "dest" 512]) :=
  ResizeImage_no_shrink_check (testEnv (fakeInfoRetOps 512) (fun _ => -1) (fun _ => -1))
    "dest" "512" 2048 (Sys.mk (newMock "" "" "" none) []) fakeSmallImageInfo 512
    (by decide) (by decide) rfl (by decide)

end Importer

namespace Errors

/-! ## Rendering of a pretty error -/

theorem foldl_append_eq (l : List String) (acc : String) :
    l.foldl (fun outputTrace line => outputTrace ++ line) acc = acc ++ String.join l := by
  induction l generalizing acc with
  | nil => simp [String.join]
  | cons a l ih =>
    rw [List.foldl_cons, ih]
    have hj : String.join (a :: l) = a ++ String.join l := by
      unfold String.join
      rw [List.foldl_cons, ih, ih "", String.empty_append, String.empty_append]
    rw [hj, String.append_assoc]

theorem trace_String_eq (t : trace) : t.String = String.join t.traceSlice := rfl

theorem String_join_cons (a : String) (l : List String) :
    String.join (a :: l) = a ++ String.join l := by
  unfold String.join
  rw [List.foldl_cons, foldl_append_eq, foldl_append_eq l "", String.empty_append,
    String.empty_append]

theorem newTraceLoop_eq (fs : List Frame) :
    ∀ (k : Nat), k ≤ fs.length → ∀ ts : List String,
      newTraceLoop fs k ts = ts ++ (fs.take k).reverse.map frameLine := by
  intro k
  induction k with
  | zero =>
    intro _ ts
    simp [newTraceLoop]
  | succ i ih =>
    intro hk ts
    have hi : i < fs.length := hk
    rw [newTraceLoop, ih (Nat.le_of_lt hi)]
    have hget : fs.getD i (Frame.mk "" "" 0) = fs[i] := by
      simp [List.getD, List.getElem?_eq_getElem hi]
    have htake : fs.take (i + 1) = fs.take i ++ [fs[i]] := by
      rw [List.take_succ, List.getElem?_eq_getElem hi]
      rfl
    rw [hget, htake, List.reverse_append, List.append_assoc]
    rfl

theorem newTrace_eq (fs : List Frame) :
    (newTrace fs).traceSlice = "\tStack Trace:\n" :: fs.reverse.map frameLine := by
  unfold newTrace
  simp only []
  rw [newTraceLoop_eq fs fs.length (Nat.le_refl _), List.take_length]
  rfl

theorem Error_of_newTrace (m : String) (fs : List Frame) :
    (prettyError.mk m (newTrace fs) fs).Error =
      "ERROR: " ++ m ++ "\n" ++ "\tStack Trace:\n" ++ String.join (fs.reverse.map frameLine) := by
  unfold prettyError.Error
  simp only []
  rw [trace_String_eq, newTrace_eq, String_join_cons, String.append_assoc,
    String.append_assoc, String.append_assoc, String.append_assoc, String.append_assoc]

/-- C19: for every message `m` and every list of frames `fs` (capture order) kept
in the error, the rendered error is "ERROR: " then `m`, a newline, the heading
"\tStack Trace:\n" and one line "\t=> function(Lline)\n" per frame, the
frames in the reverse of capture order, the last captured first; with no frame
the rendering ends after the heading; `String()` returns the same text as
`Error()`; and this is the rendering of every error built by `newError`, whose
frames are those that `frameUnstack` keeps. -/
theorem prettyError_rendering (m : String) (fs frames : List Frame) :
    (prettyError.mk m (newTrace fs) fs).Error =
      "ERROR: " ++ m ++ "\n" ++ "\tStack Trace:\n" ++
        String.join (fs.reverse.map
          (fun f => "\t=> " ++ f.Function ++ "(L" ++ toString f.Line ++ ")\n")) ∧
    (prettyError.mk m (newTrace []) []).Error = "ERROR: " ++ m ++ "\n\tStack Trace:\n" ∧
    (prettyError.mk m (newTrace fs) fs).String = (prettyError.mk m (newTrace fs) fs).Error ∧
    (newError m frames).Error =
      "ERROR: " ++ m ++ "\n" ++ "\tStack Trace:\n" ++
        String.join ((frameUnstack frames).reverse.map
          (fun f => "\t=> " ++ f.Function ++ "(L" ++ toString f.Line ++ ")\n")) ∧
    (newError m frames).String = (newError m frames).Error := by
  refine ⟨Error_of_newTrace m fs, ?_, rfl, Error_of_newTrace m (frameUnstack frames), rfl⟩
  rw [Error_of_newTrace m []]
  have hj : String.join (([] : List Frame).reverse.map frameLine) = "" := rfl
  have hlit : "\n" ++ "\tStack Trace:\n" = "\n\tStack Trace:\n" := by decide
  rw [hj, String.append_empty, String.append_assoc, hlit]

/-- An error raised two calls deep in the project, below a frame of the Go
runtime: the deeper frame, captured first, is printed last. -/
theorem prettyError_rendering_example :
    (newError "disk full" [projectFrame "importer.write" 30, projectFrame "importer.run" 12,
        runtimeFrame]).Error =
      "ERROR: disk full\n\tStack Trace:\n\t=> importer.run(L12)\n\t=> importer.write(L30)\n" := by
  decide

/-! ## Pruning of the frames -/

/-- C20 fails on the code at this input: a single frame of the project, which the
iterator delivers with `more` false.  The frame is a project frame and no frame
is foreign, so the claim keeps it; `frameUnstack` breaks before the append and
returns no frame at all. -/
theorem frameUnstack_drops_last_project_frame :
    Contains (projectFrame "importer.run" 12).File repoRoot = true ∧
    frameUnstack [projectFrame "importer.run" 12] = [] ∧
    frameUnstack [projectFrame "importer.write" 30, projectFrame "importer.run" 12] =
      [projectFrame "importer.write" 30] := by
  decide

/-- With a foreign frame after them, the project frames are all kept. -/
theorem frameUnstack_example_with_foreign_frame :
    frameUnstack [projectFrame "importer.write" 30, projectFrame "importer.run" 12,
        runtimeFrame] =
      [projectFrame "importer.write" 30, projectFrame "importer.run" 12] := by
  decide

/-! ## Trimming of the message -/

theorem newline_cutset (c : Char) : ("\n".toList.contains c) = true ↔ c = '\n' := by
  show (['\n'].contains c) = true ↔ c = '\n'
  simp

theorem rdropWhile_newlines (l : List Char) :
    ∃ k, l = l.rdropWhile (fun c => "\n".toList.contains c) ++ List.replicate k '\n' := by
  induction l using List.reverseRecOn with
  | nil => exact ⟨0, by simp⟩
  | append_singleton l a ih =>
    by_cases ha : ("\n".toList.contains a) = true
    · obtain ⟨k, hk⟩ := ih
      refine ⟨k + 1, ?_⟩
      rw [List.rdropWhile_concat_pos _ _ _ ha, List.replicate_succ', ← List.append_assoc, ← hk,
        (newline_cutset a).mp ha]
    · refine ⟨0, ?_⟩
      rw [List.rdropWhile_concat_neg _ _ _ ha]
      simp

theorem TrimRight_newlines (s : String) :
    (∃ k, s = TrimRight s "\n" ++ String.mk (List.replicate k '\n')) ∧
    (TrimRight s "\n").toList.getLast? ≠ some '\n' ∧
    (s.toList.getLast? ≠ some '\n' → TrimRight s "\n" = s) ∧
    TrimRight (TrimRight s "\n") "\n" = TrimRight s "\n" := by
  refine ⟨?_, ?_, ?_, ?_⟩
  · obtain ⟨k, hk⟩ := rdropWhile_newlines s.toList
    refine ⟨k, ?_⟩
    apply String.ext
    rw [String.data_append]
    exact hk
  · intro hlast
    have hne : s.toList.rdropWhile (fun c => "\n".toList.contains c) ≠ [] := by
      intro hnil
      have : (TrimRight s "\n").toList = [] := hnil
      rw [this] at hlast
      simp at hlast
    have hnot := List.rdropWhile_last_not (fun c => "\n".toList.contains c) s.toList hne
    have hl : (TrimRight s "\n").toList.getLast? =
        some ((s.toList.rdropWhile (fun c => "\n".toList.contains c)).getLast hne) :=
      List.getLast?_eq_getLast _ hne
    rw [hl] at hlast
    have := Option.some.inj hlast
    rw [this] at hnot
    exact hnot ((newline_cutset '\n').mpr rfl)
  · intro hlast
    apply String.ext
    show s.toList.rdropWhile (fun c => "\n".toList.contains c) = s.toList
    rw [List.rdropWhile_eq_self_iff]
    intro hne hp
    apply hlast
    rw [List.getLast?_eq_getLast _ hne, (newline_cutset _).mp hp]
  · apply String.ext
    show (s.toList.rdropWhile (fun c => "\n".toList.contains c)).rdropWhile
      (fun c => "\n".toList.contains c) = s.toList.rdropWhile (fun c => "\n".toList.contains c)
    exact List.rdropWhile_idempotent _ _

/-- C21: for every string `msg`, the message carried by `Err(msg)` is `msg`
without its trailing new lines and with nothing else changed: `msg` is the
message followed by some number of new lines, the message does not end with a
new line, a `msg` that does not end with a new line is carried unchanged, and
trimming the message again changes nothing.  `Errf(pattern, args...)` carries
the formatted string trimmed in the same way. -/
theorem Err_message_trimmed (msg : String) (frames : List Frame) :
    (Err msg frames).message = TrimRight msg "\n" ∧
    (∃ k, msg = (Err msg frames).message ++ String.mk (List.replicate k '\n')) ∧
    (Err msg frames).message.toList.getLast? ≠ some '\n' ∧
    (msg.toList.getLast? ≠ some '\n' → (Err msg frames).message = msg) ∧
    TrimRight (Err msg frames).message "\n" = (Err msg frames).message ∧
    (∀ (α : Type) (Sprintf : String → List α → String) (pattern : String) (args : List α),
      (Errf Sprintf pattern args frames).message = TrimRight (Sprintf pattern args) "\n" ∧
      (Errf Sprintf pattern args frames).message =
        (Err (Sprintf pattern args) frames).message) := by
  obtain ⟨h1, h2, h3, h4⟩ := TrimRight_newlines msg
  exact ⟨rfl, h1, h2, h3, h4, fun _ _ _ _ => ⟨rfl, rfl⟩⟩

/-- A message with two trailing new lines loses both; one without is kept; a new
line inside the message stays. -/
theorem Err_message_examples :
    (Err "disk full\n\n" [projectFrame "importer.run" 12, runtimeFrame]).message = "disk full" ∧
    (Err "disk full" [runtimeFrame]).message = "disk full" ∧
    (Err "disk\nfull\n" [runtimeFrame]).message = "disk\nfull" ∧
    (Err "\n" [runtimeFrame]).message = "" := by
  decide

/-! ## What frameUnstack keeps -/

theorem frameUnstackLoop_eq (frames : List Frame) :
    ∀ tr : List Frame, frameUnstackLoop frames tr =
      tr ++ frames.dropLast.takeWhile (fun f => Contains f.File repoRoot) := by
  induction frames with
  | nil =>
    intro tr
    simp [frameUnstackLoop]
  | cons f rest ih =>
    intro tr
    by_cases hp : Contains f.File repoRoot = true
    · cases rest with
      | nil => simp [frameUnstackLoop, hp]
      | cons g more =>
        have hstep : frameUnstackLoop (f :: g :: more) tr =
            frameUnstackLoop (g :: more) (tr ++ [f]) := by
          simp [frameUnstackLoop, hp]
        rw [hstep, ih (tr ++ [f]), List.dropLast_cons₂, List.takeWhile_cons, if_pos hp,
          List.append_assoc]
        rfl
    · have hp2 : Contains f.File repoRoot = false := by simpa using hp
      cases rest with
      | nil => simp [frameUnstackLoop, hp2]
      | cons g more =>
        have hstep : frameUnstackLoop (f :: g :: more) tr = tr := by
          simp [frameUnstackLoop, hp2]
        rw [hstep, List.dropLast_cons₂, List.takeWhile_cons, if_neg hp]
        simp

/-- C30: for every finite sequence of captured frames, `frameUnstack` returns the
longest prefix of project frames of the sequence without its last frame: the
frame delivered last is never retained, even when it is a project frame.  So
every retained frame is a project frame, the retained frames are a prefix of
the sequence without its last frame, a sequence of `n ≥ 1` frames yields at
most `n - 1` retained frames, and a single-frame sequence yields none. -/
theorem frameUnstack_longest_project_prefix (frames : List Frame) :
    frameUnstack frames = frames.dropLast.takeWhile (fun f => Contains f.File repoRoot) ∧
    (∀ f ∈ frameUnstack frames, Contains f.File repoRoot = true) ∧
    frameUnstack frames <+: frames.dropLast ∧
    (frameUnstack frames).length ≤ frames.length - 1 ∧
    (∀ f, frameUnstack [f] = []) := by
  have h : frameUnstack frames =
      frames.dropLast.takeWhile (fun f => Contains f.File repoRoot) := by
    unfold frameUnstack
    rw [frameUnstackLoop_eq frames []]
    simp
  refine ⟨h, ?_, ?_, ?_, ?_⟩
  · intro f hf
    rw [h] at hf
    exact List.mem_takeWhile_imp (p := fun g : Frame => Contains g.File repoRoot) hf
  · rw [h]
    exact List.takeWhile_prefix _
  · rw [h]
    have := (List.takeWhile_prefix (fun f => Contains f.File repoRoot)
      (l := frames.dropLast)).length_le
    rwa [List.length_dropLast] at this
  · intro f
    simp [frameUnstack, frameUnstackLoop]

/-- Three project frames with nothing after them: the first two are kept, the
third, delivered last, is not. -/
theorem frameUnstack_all_project_example :
    frameUnstack [projectFrame "importer.write" 30, projectFrame "importer.copy" 21,
        projectFrame "importer.run" 12] =
      [projectFrame "importer.write" 30, projectFrame "importer.copy" 21] := by
  decide

end Errors

namespace CDIConfig

/-! ## The values the overhead pattern accepts -/

theorem digit_le_nine (c : Char) (h : c.isDigit = true) : c.toNat - 48 ≤ 9 := by
  simp only [Char.isDigit, Bool.and_eq_true, decide_eq_true_eq] at h
  have h2 : c.val.toNat ≤ 57 := h.2
  have h3 : c.toNat = c.val.toNat := rfl
  omega

theorem matches_cases (s : String) (h : matchesOverheadPattern s = true) :
    s = "1" ∨ s = "0" ∨
      ∃ ds : List Char, s = String.mk ('0' :: '.' :: ds) ∧ 1 ≤ ds.length ∧ ds.length ≤ 3 ∧
        ds.all Char.isDigit = true := by
  obtain ⟨l⟩ := s
  unfold matchesOverheadPattern at h
  simp only [String.toList] at h
  split at h
  · left
    rfl
  · split at h
    · right; left
      rfl
    · rename_i ds
      right; right
      simp only [Bool.and_eq_true, decide_eq_true_eq] at h
      exact ⟨ds, rfl, h.1.1, h.1.2, h.2⟩
    · simp at h
  · simp at h

theorem fraction_lt (ds : List Char) (h1 : 1 ≤ ds.length) (h3 : ds.length ≤ 3)
    (hd : ds.all Char.isDigit = true) : Importer.digitsValue ds < 10 ^ ds.length := by
  rcases ds with _ | ⟨a, _ | ⟨b, _ | ⟨c, _ | ⟨d, rest⟩⟩⟩⟩
  · simp at h1
  · simp only [List.all_cons, List.all_nil, Bool.and_true] at hd
    have ha := digit_le_nine a hd
    simp only [Importer.digitsValue, List.foldl_cons, List.foldl_nil, List.length_cons,
      List.length_nil]
    omega
  · simp only [List.all_cons, List.all_nil, Bool.and_true, Bool.and_eq_true] at hd
    have ha := digit_le_nine a hd.1
    have hb := digit_le_nine b hd.2
    simp only [Importer.digitsValue, List.foldl_cons, List.foldl_nil, List.length_cons,
      List.length_nil]
    omega
  · simp only [List.all_cons, List.all_nil, Bool.and_true, Bool.and_eq_true] at hd
    have ha := digit_le_nine a hd.1
    have hb := digit_le_nine b hd.2.1
    have hc := digit_le_nine c hd.2.2
    simp only [Importer.digitsValue, List.foldl_cons, List.foldl_nil, List.length_cons,
      List.length_nil]
    omega
  · simp only [List.length_cons] at h3
    omega

theorem decimalParts_fraction (ds : List Char) (h1 : 1 ≤ ds.length)
    (hd : ds.all Char.isDigit = true) :
    decimalParts (String.mk ('0' :: '.' :: ds)) =
      some (Importer.digitsValue ds, 10 ^ ds.length) := by
  have hne : ds ≠ [] := by
    intro h
    rw [h] at h1
    simp at h1
  have h0 : Char.isDigit '0' = true := by decide
  have hdot : Char.isDigit '.' = false := by decide
  have hw : (String.mk ('0' :: '.' :: ds)).toList.takeWhile Char.isDigit = ['0'] := by
    show ('0' :: '.' :: ds).takeWhile Char.isDigit = ['0']
    simp [List.takeWhile_cons, h0, hdot]
  have hr : (String.mk ('0' :: '.' :: ds)).toList.dropWhile Char.isDigit = '.' :: ds := by
    show ('0' :: '.' :: ds).dropWhile Char.isDigit = '.' :: ds
    simp [List.dropWhile_cons, h0, hdot]
  have hz : Importer.digitsValue ['0'] = 0 := by decide
  unfold decimalParts
  simp only [hw, hr, hz]
  simp [hne, hd]

theorem matches_parts (s : String) (h : matchesOverheadPattern s = true) :
    ∃ num den, decimalParts s = some (num, den) ∧ 0 < den ∧ num ≤ den ∧
      (num = den ↔ s = "1") := by
  rcases matches_cases s h with h1 | h0 | ⟨ds, hs, hl1, hl3, hd⟩
  · subst h1
    exact ⟨1, 1, by decide, by decide, by decide, by decide⟩
  · subst h0
    exact ⟨0, 1, by decide, by decide, by decide, by decide⟩
  · subst hs
    have hlt := fraction_lt ds hl1 hl3 hd
    refine ⟨_, _, decimalParts_fraction ds hl1 hd, Nat.pos_pow_of_pos _ (by decide),
      Nat.le_of_lt hlt, ?_⟩
    constructor
    · intro heq
      omega
    · intro heq
      have := congrArg String.toList heq
      simp at this

/-- C26, as amended: every string that matches the validation pattern of the
filesystemOverhead fields is a decimal numeral whose value `v` satisfies
`0 ≤ v ≤ 1`, the value 1 being that of the string "1" alone and every other
accepted value being below 1. -/
theorem overheadPattern_values (s : String) (h : matchesOverheadPattern s = true) :
    ∃ v, decimalValue s = some v ∧ 0 ≤ v ∧ v ≤ 1 ∧ (v = 1 ↔ s = "1") ∧
      (s ≠ "1" → v < 1) := by
  obtain ⟨num, den, hp, hden, hle, hiff⟩ := matches_parts s h
  have hdq : (0 : ℚ) < (den : ℚ) := by exact_mod_cast hden
  have hv1 : ((num : ℚ) / (den : ℚ) = 1 ↔ s = "1") := by
    rw [div_eq_one_iff_eq (ne_of_gt hdq), ← hiff]
    exact_mod_cast Iff.rfl
  refine ⟨(num : ℚ) / (den : ℚ), ?_, ?_, ?_, hv1, ?_⟩
  · simp [decimalValue, hp]
  · exact div_nonneg (by exact_mod_cast Nat.zero_le num) (le_of_lt hdq)
  · rw [div_le_one hdq]
    exact_mod_cast hle
  · intro hne
    have hlt : num < den := lt_of_le_of_ne hle (fun heq => hne (hiff.mp heq))
    rw [div_lt_one hdq]
    exact_mod_cast hlt

/-- The default overhead "0.055" matches the pattern and its value, 55/1000, is
within the bounds. -/
theorem overheadPattern_values_witness :
    matchesOverheadPattern "0.055" = true ∧ decimalParts "0.055" = some (55, 1000) ∧
    ∃ v, decimalValue "0.055" = some v ∧ 0 ≤ v ∧ v ≤ 1 ∧ (v = 1 ↔ "0.055" = "1") ∧
      ("0.055" ≠ "1" → v < 1) :=
  ⟨by decide, by decide, overheadPattern_values "0.055" (by decide)⟩

/-- C26 as stated fails: the pattern accepts the string "1", whose value is 1 and
not below 1. -/
theorem overheadPattern_accepts_one :
    matchesOverheadPattern "1" = true ∧ decimalParts "1" = some (1, 1) ∧
    decimalValue "1" = some 1 ∧ ¬ ((1 : ℚ) < 1) := by
  refine ⟨by decide, by decide, ?_, lt_irrefl _⟩
  have hp : decimalParts "1" = some (1, 1) := by decide
  simp [decimalValue, hp]

end CDIConfig

namespace UploadServer

/-! ## The gate, one step at a time -/

/-- The invariant of the states the server can reach: `uploading` holds exactly
when one upload is in flight, at most one is, and `done` excludes `uploading`. -/
theorem step_invariant (s : Server) (a : Action)
    (h : (s.uploading = true ↔ s.inFlight = 1) ∧ s.inFlight ≤ 1 ∧
      (s.done = true → s.uploading = false)) :
    ((step s a).1.uploading = true ↔ (step s a).1.inFlight = 1) ∧ (step s a).1.inFlight ≤ 1 ∧
      ((step s a).1.done = true → (step s a).1.uploading = false) := by
  obtain ⟨h1, h2, h3⟩ := h
  cases a with
  | post e =>
    by_cases hu : s.uploading = true
    · have hstep : step s (Action.post e) = (s, some 503) := by
        simp only [step, hu, if_true]
      rw [hstep]
      exact ⟨h1, h2, h3⟩
    · have hu2 : s.uploading = false := by simpa using hu
      by_cases hd : s.done = true
      · have hstep : step s (Action.post e) = (s, some 409) := by
          simp only [step, hu2, hd, if_true, Bool.false_eq_true, if_false]
        rw [hstep]
        exact ⟨h1, h2, h3⟩
      · have hd2 : s.done = false := by simpa using hd
        have hz : s.inFlight = 0 := by
          have : ¬ s.inFlight = 1 := fun h => hu (h1.mpr h)
          omega
        simp [step, hu2, hd2, hz]
  | processorReturns err =>
    by_cases hz : s.inFlight = 0
    · have hstep : step s (Action.processorReturns err) = (s, none) := by
        simp only [step, hz, if_true]
      rw [hstep]
      exact ⟨h1, h2, h3⟩
    · have h1' : s.inFlight = 1 := by omega
      cases err with
      | none => simp [step, h1']
      | some e => simp [step, h1']

theorem run_invariant (actions : List Action) :
    ∀ s : Server,
      ((s.uploading = true ↔ s.inFlight = 1) ∧ s.inFlight ≤ 1 ∧
        (s.done = true → s.uploading = false)) →
      (((run s actions).uploading = true ↔ (run s actions).inFlight = 1) ∧
        (run s actions).inFlight ≤ 1 ∧
        ((run s actions).done = true → (run s actions).uploading = false)) := by
  induction actions with
  | nil =>
    intro s h
    exact h
  | cons a rest ih =>
    intro s h
    exact ih (step s a).1 (step_invariant s a h)

theorem newServer_invariant :
    (newServer.uploading = true ↔ newServer.inFlight = 1) ∧ newServer.inFlight ≤ 1 ∧
      (newServer.done = true → newServer.uploading = false) := by
  decide

theorem step_done (s : Server) (a : Action) (h : s.done = true) : (step s a).1.done = true := by
  cases a with
  | post e =>
    by_cases hu : s.uploading = true
    · have hstep : step s (Action.post e) = (s, some 503) := by
        simp only [step, hu, if_true]
      rw [hstep]
      exact h
    · have hu2 : s.uploading = false := by simpa using hu
      have hstep : step s (Action.post e) = (s, some 409) := by
        simp only [step, hu2, h, if_true, Bool.false_eq_true, if_false]
      rw [hstep]
      exact h
  | processorReturns err =>
    by_cases hz : s.inFlight = 0
    · have hstep : step s (Action.processorReturns err) = (s, none) := by
        simp only [step, hz, if_true]
      rw [hstep]
      exact h
    · cases err with
      | none => simp [step, hz]
      | some e => simp [step, hz, h]

theorem run_done (actions : List Action) :
    ∀ s : Server, s.done = true → (run s actions).done = true := by
  induction actions with
  | nil =>
    intro s h
    exact h
  | cons a rest ih =>
    intro s h
    exact ih (step s a).1 (step_done s a h)

/-- C22: in every state of the upload server with `uploading` set, reachable or
not, an upload POST to any endpoint is answered 503 and leaves the server as it
was: `uploading` and `done` are unchanged and no processor run is started.
Consequently, after every sequence of requests and processor returns from the
new server, at most one upload is in flight, and one is exactly when
`uploading` is set. -/
theorem upload_busy (actions : List Action) (s : Server) (endpoint : Endpoint) :
    (s.uploading = true → step s (Action.post endpoint) = (s, some 503)) ∧
    (run newServer actions).inFlight ≤ 1 ∧
    ((run newServer actions).uploading = true ↔ (run newServer actions).inFlight = 1) := by
  have hinv := run_invariant actions newServer newServer_invariant
  refine ⟨?_, hinv.2.1, hinv.1⟩
  intro hu
  simp only [step, hu, if_true]

/-- The unit test "Process unavailable": a server with `uploading` set answers
503 on the sync and on the async endpoint, whatever the processor would do. -/
theorem upload_busy_test :
    handleUpload (Server.mk true false 0 0) Endpoint.sync none =
      (Server.mk true false 0 0, some 503) ∧
    handleUpload (Server.mk true false 0 0) Endpoint.async none =
      (Server.mk true false 0 0, some 503) ∧
    (run newServer [Action.post Endpoint.sync, Action.post Endpoint.sync,
      Action.post Endpoint.async]).inFlight = 1 := by
  decide

/-- C23: once `done` is set in a state the server has reached, every upload POST,
to any endpoint, is answered 409 and leaves the server as it was, so that no
processor run is started; and whatever happens afterwards `done` stays set. -/
theorem upload_conflict (actions more : List Action) (endpoint : Endpoint)
    (hdone : (run newServer actions).done = true) :
    step (run newServer actions) (Action.post endpoint) =
        (run newServer actions, some 409) ∧
      (run (run newServer actions) more).done = true ∧
      (∀ e, step (run (run newServer actions) more) (Action.post e) =
        (run (run newServer actions) more, some 409)) := by
  have hinv := run_invariant actions newServer newServer_invariant
  have hu : (run newServer actions).uploading = false := hinv.2.2 hdone
  have hdone2 := run_done more (run newServer actions) hdone
  have hinv2 := run_invariant more (run newServer actions) hinv
  have hu2 : (run (run newServer actions) more).uploading = false := hinv2.2.2 hdone2
  refine ⟨?_, hdone2, ?_⟩
  · simp only [step, hu, hdone, if_true, Bool.false_eq_true, if_false]
  · intro e
    simp only [step, hu2, hdone2, if_true, Bool.false_eq_true, if_false]

/-- After one successful upload, a POST is answered 409, also after further
requests and a stray processor return. -/
theorem upload_conflict_witness :
    step (Server.mk false true 0 1) (Action.post Endpoint.async) =
        (Server.mk false true 0 1, some 409) ∧
      (run (Server.mk false true 0 1)
        [Action.post Endpoint.sync, Action.processorReturns (some ErrorKind.StreamError)]).done =
        true :=
  ⟨(upload_conflict [Action.post Endpoint.sync, Action.processorReturns none]
      [Action.post Endpoint.sync, Action.processorReturns (some ErrorKind.StreamError)]
      Endpoint.async (by decide)).1,
    (upload_conflict [Action.post Endpoint.sync, Action.processorReturns none]
      [Action.post Endpoint.sync, Action.processorReturns (some ErrorKind.StreamError)]
      Endpoint.async (by decide)).2.1⟩

/-- C24: an upload POST that reaches a server neither uploading nor done is
admitted and starts the processor once.  If the processor succeeds the response
is 200, `done` is set and `uploading` is cleared.  If it fails with an error
that is none of RequiresScratchSpace, SourceTooLarge, Unauthorized, Busy and
Conflict, the response is 500, `done` stays unset and `uploading` is cleared, so
that a further POST to the same endpoint is admitted.  In both cases exactly
one processor run was started. -/
theorem upload_admitted (s : Server) (endpoint : Endpoint)
    (hu : s.uploading = false) (hd : s.done = false) :
    ((step s (Action.post endpoint)).2 = none ∧
      (step s (Action.post endpoint)).1.uploading = true ∧
      (step s (Action.post endpoint)).1.processorRuns = s.processorRuns + 1) ∧
    ((handleUpload s endpoint none).2 = some 200 ∧
      (handleUpload s endpoint none).1.done = true ∧
      (handleUpload s endpoint none).1.uploading = false ∧
      (handleUpload s endpoint none).1.processorRuns = s.processorRuns + 1) ∧
    (∀ e : ErrorKind,
      e ∉ [ErrorKind.RequiresScratchSpace, ErrorKind.SourceTooLarge, ErrorKind.Unauthorized,
        ErrorKind.Busy, ErrorKind.Conflict] →
      (handleUpload s endpoint (some e)).2 = some 500 ∧
      (handleUpload s endpoint (some e)).1.done = false ∧
      (handleUpload s endpoint (some e)).1.uploading = false ∧
      (handleUpload s endpoint (some e)).1.processorRuns = s.processorRuns + 1 ∧
      (step (handleUpload s endpoint (some e)).1 (Action.post endpoint)).2 = none) := by
  have hpost : step s (Action.post endpoint) =
      ({ s with uploading := true, inFlight := s.inFlight + 1,
                processorRuns := s.processorRuns + 1 }, none) := by
    simp only [step, hu, hd, Bool.false_eq_true, if_false]
  have hh : ∀ err, handleUpload s endpoint err =
      step { s with uploading := true, inFlight := s.inFlight + 1,
                    processorRuns := s.processorRuns + 1 } (Action.processorReturns err) := by
    intro err
    unfold handleUpload
    rw [hpost]
  refine ⟨?_, ?_, ?_⟩
  · rw [hpost]
    exact ⟨rfl, rfl, rfl⟩
  · rw [hh none]
    simp [step]
  · intro e he
    have hstatus : statusOfError e = 500 := by
      cases e <;> simp [statusOfError] at he ⊢
    rw [hh (some e)]
    simp [step, hstatus, hd]

/-- The unit tests "Success" and "Stream fail" on a new server: 200 with `done`
set, and 500 with `done` unset, after which the same request is admitted. -/
theorem upload_admitted_witness :
    handleUpload newServer Endpoint.sync none = (Server.mk false true 0 1, some 200) ∧
    handleUpload newServer Endpoint.async (some ErrorKind.StreamError) =
      (Server.mk false false 0 1, some 500) ∧
    (step (Server.mk false false 0 1) (Action.post Endpoint.async)).2 = none :=
  ⟨Prod.ext
      (by decide)
      (upload_admitted newServer Endpoint.sync rfl rfl).2.1.1,
    Prod.ext
      (by decide)
      ((upload_admitted newServer Endpoint.async rfl rfl).2.2 ErrorKind.StreamError
        (by decide)).1,
    ((upload_admitted newServer Endpoint.async rfl rfl).2.2 ErrorKind.StreamError
      (by decide)).2.2.2.2⟩

end UploadServer
